import Mathlib

/-!
Verification of the Libra PD scheduler core against its specification.

The development shallowly embeds the relevant Go code of the repository:
the hot-peer statistics engine (statistics/hot_peer_cache.go), the
operator controller (schedule/operator_controller.go, shipped inside
server/config/persist_options.go of this snapshot) and the region
heartbeat ingest (cluster/cluster.go).  Pure functions become Lean
functions; the mutable controller and caches become explicit state
passing.  Go float64 load rates are embedded as rational numbers (the
code only compares, divides and halves them, which the rationals model
exactly on the inputs exercised here); Go maps become association lists;
pointer identity of operator objects is modelled by a numeric uid into
an explicit heap.  Components of the repository whose source is not part
of this snapshot (the operator package internals, the waiting-operator
buckets, the store-limit bucket and parts of the core region container)
are modelled from the specification text and are marked as such in their
doc comments.
-/

namespace Libra

/-! ## Association-list helpers (the embedding of Go maps) -/

/-- Lookup in an association list, the embedding of a Go map read. -/
def lookupA {κ α : Type} [DecidableEq κ] : List (κ × α) → κ → Option α
  | [], _ => none
  | (k, v) :: rest, k0 => if k = k0 then some v else lookupA rest k0

/-- Insert-or-replace in an association list, the embedding of a Go map write. -/
def setA {κ α : Type} [DecidableEq κ] : List (κ × α) → κ → α → List (κ × α)
  | [], k0, v0 => [(k0, v0)]
  | (k, v) :: rest, k0, v0 =>
      if k = k0 then (k0, v0) :: rest else (k, v) :: setA rest k0 v0

/-- Delete a key from an association list, the embedding of a Go map delete. -/
def eraseA {κ α : Type} [DecidableEq κ] : List (κ × α) → κ → List (κ × α)
  | [], _ => []
  | (k, v) :: rest, k0 => if k = k0 then rest else (k, v) :: eraseA rest k0

theorem mem_setA {κ α : Type} [DecidableEq κ] {l : List (κ × α)} {k : κ} {v : α} {e : κ × α}
    (h : e ∈ setA l k v) : e = (k, v) ∨ e ∈ l := by
  induction l with
  | nil => simpa [setA] using h
  | cons e1 rest ih =>
      obtain ⟨k1, v1⟩ := e1
      by_cases h1 : k1 = k
      · subst h1
        simp only [setA, if_true, eq_self_iff_true, List.mem_cons] at h
        rcases h with h2 | h2
        · exact Or.inl h2
        · exact Or.inr (List.mem_cons_of_mem _ h2)
      · simp only [setA, if_neg h1, List.mem_cons] at h
        rcases h with h2 | h2
        · exact Or.inr (List.mem_cons.2 (Or.inl h2))
        · rcases ih h2 with h3 | h3
          · exact Or.inl h3
          · exact Or.inr (List.mem_cons_of_mem _ h3)

theorem mem_eraseA {κ α : Type} [DecidableEq κ] {l : List (κ × α)} {k : κ} {e : κ × α}
    (h : e ∈ eraseA l k) : e ∈ l := by
  induction l with
  | nil => simp [eraseA] at h
  | cons e1 rest ih =>
      obtain ⟨k1, v1⟩ := e1
      by_cases h1 : k1 = k
      · subst h1
        simp only [eraseA, if_pos rfl] at h
        exact List.mem_cons_of_mem _ h
      · simp only [eraseA, if_neg h1, List.mem_cons] at h
        rcases h with h2 | h2
        · exact List.mem_cons.2 (Or.inl h2)
        · exact List.mem_cons_of_mem _ (ih h2)

theorem lookupA_mem {κ α : Type} [DecidableEq κ] {l : List (κ × α)} {k : κ} {v : α}
    (h : lookupA l k = some v) : (k, v) ∈ l := by
  induction l with
  | nil => simp [lookupA] at h
  | cons e rest ih =>
      obtain ⟨k1, v1⟩ := e
      by_cases h1 : k1 = k
      · subst h1
        simp only [lookupA, if_true, eq_self_iff_true, Option.some.injEq] at h
        exact List.mem_cons.2 (Or.inl (by rw [h]))
      · simp only [lookupA, if_neg h1] at h
        exact List.mem_cons_of_mem _ (ih h)

theorem keys_mem_setA {κ α : Type} [DecidableEq κ] {l : List (κ × α)} {k k1 : κ} {v : α}
    (h : k1 ∈ (setA l k v).map Prod.fst) : k1 = k ∨ k1 ∈ l.map Prod.fst := by
  rcases List.mem_map.1 h with ⟨e, he, hk⟩
  rcases mem_setA he with h2 | h2
  · exact Or.inl (by rw [← hk, h2])
  · exact Or.inr (hk ▸ List.mem_map.2 ⟨e, h2, rfl⟩)

theorem keys_mem_eraseA {κ α : Type} [DecidableEq κ] {l : List (κ × α)} {k k1 : κ}
    (h : k1 ∈ (eraseA l k).map Prod.fst) : k1 ∈ l.map Prod.fst := by
  rcases List.mem_map.1 h with ⟨e, he, hk⟩
  exact hk ▸ List.mem_map.2 ⟨e, mem_eraseA he, rfl⟩

theorem lookupA_setA_self {κ α : Type} [DecidableEq κ] (l : List (κ × α)) (k : κ) (v : α) :
    lookupA (setA l k v) k = some v := by
  induction l with
  | nil => simp [setA, lookupA]
  | cons e rest ih =>
      obtain ⟨k1, v1⟩ := e
      by_cases h : k1 = k
      · subst h; simp [setA, lookupA]
      · simp [setA, lookupA, h, ih]

theorem lookupA_setA_ne {κ α : Type} [DecidableEq κ] (l : List (κ × α)) (k k0 : κ) (v : α)
    (h : k ≠ k0) : lookupA (setA l k v) k0 = lookupA l k0 := by
  induction l with
  | nil => simp [setA, lookupA, h]
  | cons e rest ih =>
      obtain ⟨k1, v1⟩ := e
      by_cases h1 : k1 = k
      · subst h1; simp [setA, lookupA, h]
      · simp [setA, lookupA, h1, ih]

theorem lookupA_eq_none {κ α : Type} [DecidableEq κ] {l : List (κ × α)} {k : κ}
    (h : k ∉ l.map Prod.fst) : lookupA l k = none := by
  induction l with
  | nil => rfl
  | cons e rest ih =>
      obtain ⟨k1, v1⟩ := e
      simp only [List.map_cons, List.mem_cons, not_or] at h
      have hne : k1 ≠ k := fun hh => h.1 hh.symm
      simp [lookupA, hne, ih h.2]

theorem lookupA_eraseA_self {κ α : Type} [DecidableEq κ] (l : List (κ × α)) (k : κ)
    (hnd : (l.map Prod.fst).Nodup) : lookupA (eraseA l k) k = none := by
  induction l with
  | nil => simp [eraseA, lookupA]
  | cons e rest ih =>
      obtain ⟨k1, v1⟩ := e
      simp only [List.map_cons, List.nodup_cons] at hnd
      by_cases h : k1 = k
      · subst h
        simp only [eraseA, if_pos rfl]
        exact lookupA_eq_none hnd.1
      · simp only [eraseA, if_neg h, lookupA, if_neg h]
        exact ih hnd.2

theorem lookupA_eraseA_ne {κ α : Type} [DecidableEq κ] (l : List (κ × α)) (k k0 : κ)
    (h : k ≠ k0) : lookupA (eraseA l k) k0 = lookupA l k0 := by
  induction l with
  | nil => simp [eraseA]
  | cons e rest ih =>
      obtain ⟨k1, v1⟩ := e
      by_cases h1 : k1 = k
      · subst h1; simp [eraseA, lookupA, h]
      · simp only [eraseA, if_neg h1, lookupA]
        by_cases h2 : k1 = k0 <;> simp [h2, ih]

theorem nodup_keys_setA {κ α : Type} [DecidableEq κ] (l : List (κ × α)) (k : κ) (v : α)
    (hnd : (l.map Prod.fst).Nodup) : ((setA l k v).map Prod.fst).Nodup := by
  induction l with
  | nil => simp [setA]
  | cons e rest ih =>
      obtain ⟨k1, v1⟩ := e
      simp only [List.map_cons, List.nodup_cons] at hnd
      by_cases h : k1 = k
      · subst h
        simp only [setA, if_true, eq_self_iff_true, List.map_cons, List.nodup_cons]
        exact hnd
      · simp only [setA, if_neg h, List.map_cons, List.nodup_cons]
        refine ⟨fun hm => ?_, ih hnd.2⟩
        rcases keys_mem_setA hm with h2 | h2
        · exact h h2
        · exact hnd.1 h2

theorem nodup_keys_eraseA {κ α : Type} [DecidableEq κ] (l : List (κ × α)) (k : κ)
    (hnd : (l.map Prod.fst).Nodup) : ((eraseA l k).map Prod.fst).Nodup := by
  induction l with
  | nil => simp [eraseA]
  | cons e rest ih =>
      obtain ⟨k1, v1⟩ := e
      simp only [List.map_cons, List.nodup_cons] at hnd
      by_cases h : k1 = k
      · subst h
        simpa [eraseA] using hnd.2
      · simp only [eraseA, if_neg h, List.map_cons, List.nodup_cons]
        exact ⟨fun hm => hnd.1 (keys_mem_eraseA hm), ih hnd.2⟩

/-! ## Region data model (metapb.Peer / core.RegionInfo, the fields the
embedded code reads) -/

/-- A peer replica of a region on a store (metapb.Peer). -/
structure Peer where
  id : Nat
  storeID : Nat
deriving DecidableEq, Repr

/-- The slice of core.RegionInfo read by the embedded code: identifier,
epoch, peer set, leader, reported flow counters with their interval, and
the fields diffed by the heartbeat ingest.  A nil leader pointer is
modelled as none; proto getters on nil return zero, matched by the
getter functions below. -/
structure RegionInfo where
  id : Nat
  epochVer : Nat
  epochConfVer : Nat
  peers : List Peer
  leader : Option Peer
  downPeers : List Peer
  pendingPeers : List Peer
  bytesWritten : Nat
  bytesRead : Nat
  keysWritten : Nat
  keysRead : Nat
  opsWrite : Nat
  opsRead : Nat
  intervalStart : Nat
  intervalEnd : Nat
  approximateSize : Int
  approximateKeys : Int
  /-- replication status; none models a nil pointer whose getters yield
  state UNKNOWN (0) and state-id 0. -/
  replStatus : Option (Nat × Nat)
deriving DecidableEq, Repr

/-- region.GetLeader().GetStoreId(): 0 when the leader pointer is nil. -/
def RegionInfo.leaderStoreID (r : RegionInfo) : Nat :=
  (r.leader.map Peer.storeID).getD 0

/-- region.GetLeader().GetId(): 0 when the leader pointer is nil. -/
def RegionInfo.leaderID (r : RegionInfo) : Nat :=
  (r.leader.map Peer.id).getD 0

/-- region.GetStorePeer(storeID): the peer residing on the store, if any. -/
def RegionInfo.getStorePeer (r : RegionInfo) (storeID : Nat) : Option Peer :=
  r.peers.find? (fun p => p.storeID = storeID)

/-- region.GetReplicationStatus().GetState(): 0 (UNKNOWN) on nil. -/
def RegionInfo.replState (r : RegionInfo) : Nat :=
  (r.replStatus.map Prod.fst).getD 0

/-- region.GetReplicationStatus().GetStateId(): 0 on nil. -/
def RegionInfo.replStateID (r : RegionInfo) : Nat :=
  (r.replStatus.map Prod.snd).getD 0

/-! ## Hot-peer statistics (statistics/hot_peer_cache.go) -/

namespace Statistics

/-- FlowKind of a hot-peer cache (WriteFlow / ReadFlow). -/
inductive FlowKind where
  | write
  | read
deriving DecidableEq, Repr

/-- Constants of hot_peer_cache.go. -/
def topNN : Nat := 60

/-- rollingWindowsSize. -/
def rollingWindowsSize : Nat := 5

/-- hotRegionReportMinInterval (seconds). -/
def hotRegionReportMinInterval : Nat := 3

/-- hotRegionAntiCount. -/
def hotRegionAntiCount : Int := 2

/-- updateWithOtherStats. -/
def updateWithOtherStats : Bool := true

/-- Modelled from the spec: the package-level Denoising switch is not part
of this source snapshot; the spec says denoising skips reports whose
interval is below hotRegionReportMinInterval, so the switch is on. -/
def Denoising : Bool := true

/-- One value for each of the six load dimensions
(byteDim, keyDim, opsDim, otherByteDim, otherKeyDim, otherOpsDim);
the embedding of the Go array [dimLen]float64 with float64 as Rat. -/
structure Dims where
  byteDim : Rat
  keyDim : Rat
  opsDim : Rat
  otherByteDim : Rat
  otherKeyDim : Rat
  otherOpsDim : Rat
deriving DecidableEq, Repr

/-- Halve every dimension of a Dims value (the loop body of
ReduceHotThresholds applied to an array value). -/
def halveDims (d : Dims) : Dims :=
  ⟨d.byteDim / 2, d.keyDim / 2, d.opsDim / 2,
   d.otherByteDim / 2, d.otherKeyDim / 2, d.otherOpsDim / 2⟩

/-- The initial value of the package-level minHotThresholds variable:
byte dimensions 256, key and ops dimensions 16, for both flow kinds. -/
def minHotThresholdsInit : FlowKind → Dims :=
  fun _ => ⟨256, 16, 16, 256, 16, 16⟩

/-- HotPeerStat.  The six rolling MovingAvg fields are embedded as
Option (List Rat): none models the nil interface, some l a MedianFilter
holding the most recent samples (newest first).  HotDegree and AntiCount
are Go int, embedded as Int. -/
structure HotPeerStat where
  storeID : Nat
  regionID : Nat
  hotDegree : Int
  antiCount : Int
  kind : FlowKind
  byteRate : Rat
  keyRate : Rat
  ops : Rat
  otherByteRate : Rat
  otherKeyRate : Rat
  otherOps : Rat
  rollingByteRate : Option (List Rat)
  rollingKeyRate : Option (List Rat)
  rollingOps : Option (List Rat)
  rollingOtherByteRate : Option (List Rat)
  rollingOtherKeyRate : Option (List Rat)
  rollingOtherOps : Option (List Rat)
  version : Nat
  needDelete : Bool
  isLeader : Bool
  isNew : Bool
deriving DecidableEq, Repr

/-- Modelled from the spec: MedianFilter.Add keeps a window of the most
recent rollingWindowsSize samples (the filter source is not part of this
snapshot; only the retained samples matter here, never the median). -/
def medianFilterAdd (l : List Rat) (x : Rat) : List Rat :=
  (x :: l).take rollingWindowsSize

/-- MovingAvg.Add through a possibly-nil interface value; in the code the
receiver is never nil when Add is called. -/
def rollingAdd (r : Option (List Rat)) (x : Rat) : Option (List Rat) :=
  r.map (fun l => medianFilterAdd l x)

/-- The Top-N container of one store, embedded as an association list
keyed by region ID (TopN.Put inserts or replaces, TopN.Remove deletes,
TopN.Get looks up, TopN.Len is the length; the TTL eviction and the
per-dimension orderings are not exercised by the embedded paths). -/
abbrev TopNMap := List (Nat × HotPeerStat)

/-- hotPeerCache. -/
structure HotPeerCache where
  kind : FlowKind
  peersOfStore : List (Nat × TopNMap)
  storesOfRegion : List (Nat × List Nat)
deriving DecidableEq, Repr

/-- NewHotStoresStats. -/
def newHotStoresStats (kind : FlowKind) : HotPeerCache :=
  ⟨kind, [], []⟩

/-- hotPeerCache.getOldHotPeerStat. -/
def getOldHotPeerStat (f : HotPeerCache) (regionID storeID : Nat) : Option HotPeerStat :=
  match lookupA f.peersOfStore storeID with
  | none => none
  | some hotPeers => lookupA hotPeers regionID

/-- hotPeerCache.isRegionExpired. -/
def isRegionExpired (f : HotPeerCache) (region : RegionInfo) (storeID : Nat) : Bool :=
  match f.kind with
  | .write => (region.getStorePeer storeID).isNone
  | .read => region.leaderStoreID ≠ storeID

/-- hotPeerCache.calcHotThresholds.  When the store's Top-N holds fewer
than topNN entries the minimum thresholds are returned directly; in the
other branch the code builds ret from the Top-N minima and then the loop
overwrites every dimension with minThresholds[k] (the quantile line is
commented out in the source), so that branch also returns the minimum
thresholds.  The current package-level minHotThresholds value is passed
in as g. -/
def calcHotThresholds (g : FlowKind → Dims) (f : HotPeerCache) (storeID : Nat) : Dims :=
  let minThresholds := g f.kind
  match lookupA f.peersOfStore storeID with
  | none => minThresholds
  | some tn => if tn.length < topNN then minThresholds else minThresholds

/-- hotPeerCache.ReduceHotThresholds.  In Go,
minThresholds := minHotThresholds[f.kind] copies the array (arrays are
value types), and the loop minThresholds[k] /= 2 halves that local copy;
the package-level minHotThresholds is never written, so the new global
state returned equals the old one. -/
def ReduceHotThresholds (g : FlowKind → Dims) (kind : FlowKind) : FlowKind → Dims :=
  let minThresholds := g kind
  let _halvedCopy := halveDims minThresholds
  g

/-- The behavior of ReduceHotThresholds stated by the spec: halve the
per-dimension minimum thresholds of the cache's flow kind in the shared
state (used to compare the claim with the code). -/
def reduceHotThresholdsSpec (g : FlowKind → Dims) (kind : FlowKind) : FlowKind → Dims :=
  fun k => if k = kind then halveDims (g k) else g k

/-- The hot test of updateHotPeerStat: any primary-dimension rate meets
its threshold, or, since updateWithOtherStats is set, any other-dimension
rate meets its threshold. -/
def isHotStat (n : HotPeerStat) (t : Dims) : Bool :=
  let primary := decide (t.byteDim ≤ n.byteRate) || decide (t.keyDim ≤ n.keyRate) ||
    decide (t.opsDim ≤ n.ops)
  if updateWithOtherStats then
    primary || decide (t.otherByteDim ≤ n.otherByteRate) ||
      decide (t.otherKeyDim ≤ n.otherKeyRate) || decide (t.otherOpsDim ≤ n.otherOps)
  else primary

/-- Append the current rates of an item to all six rolling filters (the
tail of updateHotPeerStat). -/
def addRatesToRollings (n : HotPeerStat) : HotPeerStat :=
  { n with
    rollingByteRate := rollingAdd n.rollingByteRate n.byteRate
    rollingKeyRate := rollingAdd n.rollingKeyRate n.keyRate
    rollingOps := rollingAdd n.rollingOps n.ops
    rollingOtherByteRate := rollingAdd n.rollingOtherByteRate n.otherByteRate
    rollingOtherKeyRate := rollingAdd n.rollingOtherKeyRate n.otherKeyRate
    rollingOtherOps := rollingAdd n.rollingOtherOps n.otherOps }

/-- hotPeerCache.updateHotPeerStat.  The storesStats argument of the Go
function is unused in its body and is omitted. -/
def updateHotPeerStat (g : FlowKind → Dims) (f : HotPeerCache)
    (newItem : HotPeerStat) (oldItem : Option HotPeerStat) : Option HotPeerStat :=
  let thresholds := calcHotThresholds g f newItem.storeID
  let isHot := isHotStat newItem thresholds
  if newItem.needDelete then some newItem
  else
    match oldItem with
    | some old =>
        let n1 := { newItem with
          rollingByteRate := old.rollingByteRate
          rollingKeyRate := old.rollingKeyRate
          rollingOps := old.rollingOps
          rollingOtherByteRate := old.rollingOtherByteRate
          rollingOtherKeyRate := old.rollingOtherKeyRate
          rollingOtherOps := old.rollingOtherOps }
        let n2 :=
          if isHot then
            { n1 with hotDegree := old.hotDegree + 1, antiCount := hotRegionAntiCount }
          else
            let n := { n1 with hotDegree := old.hotDegree - 1, antiCount := old.antiCount - 1 }
            if n.antiCount ≤ 0 then { n with needDelete := true } else n
        some (addRatesToRollings n2)
    | none =>
        if !isHot then none
        else
          some (addRatesToRollings
            { newItem with
              rollingByteRate := some []
              rollingKeyRate := some []
              rollingOps := some []
              rollingOtherByteRate := some []
              rollingOtherKeyRate := some []
              rollingOtherOps := some []
              antiCount := hotRegionAntiCount
              isNew := true })

/-- hotPeerCache.Update. -/
def cacheUpdate (f : HotPeerCache) (item : HotPeerStat) : HotPeerCache :=
  if item.needDelete then
    let peersOfStore :=
      match lookupA f.peersOfStore item.storeID with
      | some peers => setA f.peersOfStore item.storeID (eraseA peers item.regionID)
      | none => f.peersOfStore
    let storesOfRegion :=
      match lookupA f.storesOfRegion item.regionID with
      | some stores => setA f.storesOfRegion item.regionID (stores.erase item.storeID)
      | none => f.storesOfRegion
    { f with peersOfStore := peersOfStore, storesOfRegion := storesOfRegion }
  else
    let peers := (lookupA f.peersOfStore item.storeID).getD []
    let stores := (lookupA f.storesOfRegion item.regionID).getD []
    { f with
      peersOfStore := setA f.peersOfStore item.storeID (setA peers item.regionID item)
      storesOfRegion := setA f.storesOfRegion item.regionID
        (if item.storeID ∈ stores then stores else stores ++ [item.storeID]) }

/-- hotPeerCache's per-kind total flow reads (getTotalBytes / getTotalKeys /
getTotalOps). -/
def getTotalBytes (f : HotPeerCache) (r : RegionInfo) : Nat :=
  match f.kind with
  | .write => r.bytesWritten
  | .read => r.bytesRead

/-- getTotalKeys. -/
def getTotalKeys (f : HotPeerCache) (r : RegionInfo) : Nat :=
  match f.kind with
  | .write => r.keysWritten
  | .read => r.keysRead

/-- getTotalOps. -/
def getTotalOps (f : HotPeerCache) (r : RegionInfo) : Nat :=
  match f.kind with
  | .write => r.opsWrite
  | .read => r.opsRead

/-- getTotalOtherBytes (the opposite direction). -/
def getTotalOtherBytes (f : HotPeerCache) (r : RegionInfo) : Nat :=
  match f.kind with
  | .read => r.bytesWritten
  | .write => r.bytesRead

/-- getTotalOtherKeys. -/
def getTotalOtherKeys (f : HotPeerCache) (r : RegionInfo) : Nat :=
  match f.kind with
  | .read => r.keysWritten
  | .write => r.keysRead

/-- getTotalOtherOps. -/
def getTotalOtherOps (f : HotPeerCache) (r : RegionInfo) : Nat :=
  match f.kind with
  | .read => r.opsWrite
  | .write => r.opsRead

/-- hotPeerCache.getAllStoreIDs: store IDs of the cached old entry of the
region followed by the stores of the reported peers, without duplicates
(for ReadFlow only the leader's store is considered among the peers).
The Go code iterates a set for the old stores; the embedding uses the
recorded insertion order, which is irrelevant to the properties proved. -/
def getAllStoreIDs (f : HotPeerCache) (region : RegionInfo) : List Nat :=
  let oldIds := (lookupA f.storesOfRegion region.id).getD []
  region.peers.foldl
    (fun acc p =>
      if f.kind = FlowKind.read ∧ p.storeID ≠ region.leaderStoreID then acc
      else if p.storeID ∈ acc then acc else acc ++ [p.storeID])
    oldIds

/-- Accumulator of the CheckRegionFlow loop: the cached tmpItem handoff
and the collected return list. -/
structure CRFAcc where
  tmpItem : Option HotPeerStat
  ret : List HotPeerStat

/-- One iteration of the CheckRegionFlow store loop. -/
def checkRegionFlowStep (g : FlowKind → Dims) (f : HotPeerCache) (region : RegionInfo)
    (interval : Nat) (byteRate keyRate ops otherByteRate otherKeyRate otherOps : Rat)
    (storeIDs : List Nat) (acc : CRFAcc) (storeID : Nat) : CRFAcc :=
  let isExpired := isRegionExpired f region storeID
  let oldItem := getOldHotPeerStat f region.id storeID
  let tmpItem := if isExpired ∧ oldItem.isSome then oldItem else acc.tmpItem
  if ¬ isExpired ∧ Denoising ∧ interval < hotRegionReportMinInterval then
    { acc with tmpItem := tmpItem }
  else
    let newItem : HotPeerStat :=
      { storeID := storeID
        regionID := region.id
        hotDegree := 0
        antiCount := 0
        kind := f.kind
        byteRate := byteRate
        keyRate := keyRate
        ops := ops
        otherByteRate := otherByteRate
        otherKeyRate := otherKeyRate
        otherOps := otherOps
        rollingByteRate := none
        rollingKeyRate := none
        rollingOps := none
        rollingOtherByteRate := none
        rollingOtherKeyRate := none
        rollingOtherOps := none
        version := region.epochVer
        needDelete := isExpired
        isLeader := region.leaderStoreID = storeID
        isNew := false }
    let oldItem2 :=
      match oldItem with
      | some o => some o
      | none =>
          match tmpItem with
          | some t => some t
          | none => (storeIDs.map (getOldHotPeerStat f region.id)).reduceOption.head?
    match updateHotPeerStat g f newItem oldItem2 with
    | some r => { tmpItem := tmpItem, ret := acc.ret ++ [r] }
    | none => { tmpItem := tmpItem, ret := acc.ret }

/-- hotPeerCache.CheckRegionFlow.  Rates are the reported totals divided
by the reported interval; an interval of zero never occurs in the
exercised paths (Go would produce an IEEE infinity there, the rationals
produce zero). -/
def checkRegionFlow (g : FlowKind → Dims) (f : HotPeerCache) (region : RegionInfo) :
    List HotPeerStat :=
  let interval := region.intervalEnd - region.intervalStart
  let byteRate : Rat := (getTotalBytes f region : Rat) / (interval : Rat)
  let keyRate : Rat := (getTotalKeys f region : Rat) / (interval : Rat)
  let ops : Rat := (getTotalOps f region : Rat) / (interval : Rat)
  let otherByteRate : Rat := (getTotalOtherBytes f region : Rat) / (interval : Rat)
  let otherKeyRate : Rat := (getTotalOtherKeys f region : Rat) / (interval : Rat)
  let otherOps : Rat := (getTotalOtherOps f region : Rat) / (interval : Rat)
  let storeIDs := getAllStoreIDs f region
  (storeIDs.foldl
    (checkRegionFlowStep g f region interval byteRate keyRate ops otherByteRate
      otherKeyRate otherOps storeIDs)
    ⟨none, []⟩).ret

/-- hotPeerCache.isRegionHotWithPeer. -/
def isRegionHotWithPeer (f : HotPeerCache) (region : RegionInfo) (peer : Option Peer)
    (hotDegree : Int) : Bool :=
  match peer with
  | none => false
  | some p =>
      match lookupA f.peersOfStore p.storeID with
      | some peers =>
          match lookupA peers region.id with
          | some stat => decide (hotDegree ≤ stat.hotDegree)
          | none => false
      | none => false

/-- hotPeerCache.isRegionHotWithAnyPeers. -/
def isRegionHotWithAnyPeers (f : HotPeerCache) (region : RegionInfo) (hotDegree : Int) : Bool :=
  region.peers.any (fun p => isRegionHotWithPeer f region (some p) hotDegree)

/-- hotPeerCache.IsRegionHot. -/
def IsRegionHot (f : HotPeerCache) (region : RegionInfo) (hotDegree : Int) : Bool :=
  match f.kind with
  | .write => isRegionHotWithAnyPeers f region hotDegree
  | .read => isRegionHotWithPeer f region region.leader hotDegree

/-- One report round as driven by the heartbeat ingest: CheckRegionFlow
followed by Update of every returned item. -/
def reportRound (g : FlowKind → Dims) (f : HotPeerCache) (region : RegionInfo) :
    HotPeerCache × List HotPeerStat :=
  let items := checkRegionFlow g f region
  (items.foldl cacheUpdate f, items)

end Statistics

/-! ## Theorems about the hot-peer statistics -/

namespace Statistics

/-- Claim C2: for updateHotPeerStat with a prior item and a new item not
flagged for deletion, a hot observation (any dimension rate of the new
item meets its threshold) yields HotDegree = old.HotDegree + 1 and
AntiCount reset to hotRegionAntiCount = 2, while a cold observation
yields HotDegree = old.HotDegree - 1, AntiCount = old.AntiCount - 1, and
needDelete set exactly when the decremented AntiCount is at most 0. -/
theorem C2_updateHotPeerStat_with_old (g : FlowKind → Dims) (f : HotPeerCache)
    (newItem old : HotPeerStat) (hdel : newItem.needDelete = false) :
    (isHotStat newItem (calcHotThresholds g f newItem.storeID) = true →
      ∃ r, updateHotPeerStat g f newItem (some old) = some r ∧
        r.hotDegree = old.hotDegree + 1 ∧ r.antiCount = 2 ∧ r.needDelete = false) ∧
    (isHotStat newItem (calcHotThresholds g f newItem.storeID) = false →
      ∃ r, updateHotPeerStat g f newItem (some old) = some r ∧
        r.hotDegree = old.hotDegree - 1 ∧ r.antiCount = old.antiCount - 1 ∧
        (r.needDelete = true ↔ old.antiCount - 1 ≤ 0)) := by
  constructor
  · intro hHot
    simp only [updateHotPeerStat, hdel, hHot, Bool.false_eq_true, if_false, if_true,
      hotRegionAntiCount]
    exact ⟨_, rfl, by simp [addRatesToRollings], by simp [addRatesToRollings],
      by simp [addRatesToRollings, hdel]⟩
  · intro hCold
    by_cases hz : old.antiCount - 1 ≤ 0
    · simp only [updateHotPeerStat, hdel, hCold, Bool.false_eq_true, if_false, if_true, hz]
      exact ⟨_, rfl, by simp [addRatesToRollings], by simp [addRatesToRollings],
        by simp [addRatesToRollings, hz]⟩
    · simp only [updateHotPeerStat, hdel, hCold, Bool.false_eq_true, if_false, if_true, hz]
      exact ⟨_, rfl, by simp [addRatesToRollings], by simp [addRatesToRollings],
        by simp [addRatesToRollings, hdel, hz]⟩

/-- Witness for C2 at concrete inputs: a hot new item over a prior item
with HotDegree 7, and a cold new item over a prior item with AntiCount 1. -/
theorem C2_updateHotPeerStat_with_old_witness :
    (let n : HotPeerStat :=
      { storeID := 1, regionID := 100, hotDegree := 0, antiCount := 0,
        kind := FlowKind.write, byteRate := 1000, keyRate := 0, ops := 0,
        otherByteRate := 0, otherKeyRate := 0, otherOps := 0,
        rollingByteRate := none, rollingKeyRate := none, rollingOps := none,
        rollingOtherByteRate := none, rollingOtherKeyRate := none,
        rollingOtherOps := none, version := 1, needDelete := false,
        isLeader := true, isNew := false }
     let old : HotPeerStat := { n with hotDegree := 7, antiCount := 2 }
     n.needDelete = false ∧
     (isHotStat n (calcHotThresholds minHotThresholdsInit (newHotStoresStats FlowKind.write)
        n.storeID) = true →
      ∃ r, updateHotPeerStat minHotThresholdsInit (newHotStoresStats FlowKind.write)
          n (some old) = some r ∧
        r.hotDegree = old.hotDegree + 1 ∧ r.antiCount = 2 ∧ r.needDelete = false)) := by
  refine ⟨rfl, ?_⟩
  exact (C2_updateHotPeerStat_with_old minHotThresholdsInit
    (newHotStoresStats FlowKind.write) _ _ rfl).1

unseal Rat.mul Rat.add Rat.inv Rat.sub in
/-- Claim C8 (code bug in ReduceHotThresholds): in Go the statement
minThresholds := minHotThresholds[f.kind] copies the array, so the loop
halves a local copy and the shared minimum thresholds are unchanged;
every subsequent calcHotThresholds call therefore returns the same
thresholds as before, not the halved ones the spec describes.  The last
conjunct shows what the spec-described halving would have produced. -/
theorem C8_reduceHotThresholds_is_noop :
    (∀ g kind, ReduceHotThresholds g kind = g) ∧
    (∀ g kind f storeID,
      calcHotThresholds (ReduceHotThresholds g kind) f storeID =
        calcHotThresholds g f storeID) ∧
    calcHotThresholds (ReduceHotThresholds minHotThresholdsInit FlowKind.write)
      (newHotStoresStats FlowKind.write) 1 = ⟨256, 16, 16, 256, 16, 16⟩ ∧
    calcHotThresholds (reduceHotThresholdsSpec minHotThresholdsInit FlowKind.write)
      (newHotStoresStats FlowKind.write) 1 = ⟨128, 8, 8, 128, 8, 8⟩ := by
  refine ⟨fun g kind => rfl, fun g kind f storeID => rfl, ?_, ?_⟩ <;> decide

/-- The C3 scenario: region 100 with a single peer on store 1 reporting a
byte rate of 1000 (above the 256 threshold) over a 10-second interval. -/
def c3HotRegion : RegionInfo :=
  { id := 100, epochVer := 1, epochConfVer := 1,
    peers := [⟨1, 1⟩], leader := some ⟨1, 1⟩,
    downPeers := [], pendingPeers := [],
    bytesWritten := 10000, bytesRead := 0, keysWritten := 0, keysRead := 0,
    opsWrite := 0, opsRead := 0,
    intervalStart := 0, intervalEnd := 10,
    approximateSize := 0, approximateKeys := 0, replStatus := none }

/-- The C3 cold report: the same region reporting no flow at all. -/
def c3ColdRegion : RegionInfo := { c3HotRegion with bytesWritten := 0 }

/-- Write-flow cache states after each of the six C3 reports
(three hot, then three cold). -/
def c3State1 : HotPeerCache :=
  (reportRound minHotThresholdsInit (newHotStoresStats FlowKind.write) c3HotRegion).1

/-- State after the second hot report. -/
def c3State2 : HotPeerCache := (reportRound minHotThresholdsInit c3State1 c3HotRegion).1

/-- State after the third hot report. -/
def c3State3 : HotPeerCache := (reportRound minHotThresholdsInit c3State2 c3HotRegion).1

/-- State after the first cold report. -/
def c3State4 : HotPeerCache := (reportRound minHotThresholdsInit c3State3 c3ColdRegion).1

/-- State after the second cold report, together with the items that
round returned. -/
def c3Round5 : HotPeerCache × List HotPeerStat :=
  reportRound minHotThresholdsInit c3State4 c3ColdRegion

/-- State after the third cold report. -/
def c3State6 : HotPeerCache := (reportRound minHotThresholdsInit c3Round5.1 c3ColdRegion).1

unseal Rat.mul Rat.add Rat.inv Rat.sub in
/-- Counterexample to claim C3: after the first above-threshold report
the cached stat has HotDegree 0, not 1 (the first-sight branch of
updateHotPeerStat never sets HotDegree), and IsRegionHot with threshold 1
is already false during the hot stretch; hence the claimed trajectory
1,2,3,2,1,0 is wrong from its first element. -/
theorem C3_counterexample :
    (getOldHotPeerStat c3State1 100 1).map HotPeerStat.hotDegree = some 0 ∧
    (getOldHotPeerStat c3State1 100 1).map HotPeerStat.hotDegree ≠ some 1 ∧
    IsRegionHot c3State1 c3HotRegion 1 = false := by
  decide

unseal Rat.mul Rat.add Rat.inv Rat.sub in
/-- Claim C3 amended: over three hot reports followed by three cold
reports, the cached HotDegree trajectory is 0, 1, 2, 1; the second cold
report decrements AntiCount to 0, flags the stat needDelete and removes
it from the store's Top-N (the third cold report sees no cached stat and
creates none); IsRegionHot with hot-degree threshold 1 is true from the
second hot report through the first cold report and false otherwise. -/
theorem C3_amended_trajectory :
    [(getOldHotPeerStat c3State1 100 1).map HotPeerStat.hotDegree,
     (getOldHotPeerStat c3State2 100 1).map HotPeerStat.hotDegree,
     (getOldHotPeerStat c3State3 100 1).map HotPeerStat.hotDegree,
     (getOldHotPeerStat c3State4 100 1).map HotPeerStat.hotDegree,
     (getOldHotPeerStat c3Round5.1 100 1).map HotPeerStat.hotDegree,
     (getOldHotPeerStat c3State6 100 1).map HotPeerStat.hotDegree] =
      [some 0, some 1, some 2, some 1, none, none] ∧
    c3Round5.2.map (fun s => (s.hotDegree, s.antiCount, s.needDelete)) = [(0, 0, true)] ∧
    [IsRegionHot c3State1 c3HotRegion 1, IsRegionHot c3State2 c3HotRegion 1,
     IsRegionHot c3State3 c3HotRegion 1, IsRegionHot c3State4 c3ColdRegion 1,
     IsRegionHot c3Round5.1 c3ColdRegion 1, IsRegionHot c3State6 c3ColdRegion 1] =
      [false, true, true, true, false, false] := by
  decide

end Statistics

/-! ## Operator controller (schedule/operator_controller.go) -/

namespace Schedule

/-- Operator status (the FSM of the operator model).  Modelled from the
spec: the operator package is not part of this source snapshot; the spec
gives created, started and the terminal statuses success, replaced,
canceled, expired, timeout. -/
inductive OpStatus where
  | created
  | started
  | success
  | replaced
  | canceled
  | expiredStatus
  | timeout
deriving DecidableEq, Repr

/-- Operator steps (operator.OpStep variants switched on by
SendScheduleCommand and getNextPushOperatorTime). -/
inductive OpStep where
  | transferLeader (toStore : Nat)
  | addPeer (toStore peerID : Nat)
  | addLightPeer (toStore peerID : Nat)
  | addLearner (toStore peerID : Nat)
  | addLightLearner (toStore peerID : Nat)
  | promoteLearner (toStore peerID : Nat)
  | demoteFollower (toStore peerID : Nat)
  | removePeer (fromStore : Nat)
  | mergeRegion (passive : Bool)
  | splitRegion
  | changePeerV2Enter
  | changePeerV2Leave
deriving DecidableEq, Repr

/-- Modelled from the spec: operator kind bits.  Only bit tests against
OpMerge, OpHotRegion and OpSplit occur in the embedded code, so the
concrete values are free. -/
def opLeader : Nat := 1

/-- OpRegion bit. -/
def opRegion : Nat := 2

/-- OpAdmin bit. -/
def opAdmin : Nat := 4

/-- OpMerge bit. -/
def opMerge : Nat := 8

/-- OpHotRegion bit. -/
def opHotRegion : Nat := 16

/-- OpSplit bit. -/
def opSplit : Nat := 32

/-- The operator record (operator.Operator).  Fields read by the
controller: region ID, the region-epoch snapshot taken at creation, the
kind bitmask, the priority level, the status, and the description used
as the waiting-count key.  The fields below the status are modelled from
the spec, the operator package being absent from this snapshot:
expiredNow abstracts CheckExpired (creation-to-now exceeded the per-kind
cap), timedOut abstracts the running-time timeout tested inside Check,
remaining lists the steps not yet finished (Check returns its head),
confVerDelta abstracts ConfVerChanged (how many conf-version bumps the
operator itself accounts for), and influence lists the per
(storeID, limit-type) step cost used for store-limit accounting. -/
structure Operator where
  regionID : Nat
  epochVer : Nat
  epochConfVer : Nat
  kind : Nat
  priorityLevel : Int
  status : OpStatus
  desc : String
  expiredNow : Bool
  timedOut : Bool
  remaining : List OpStep
  confVerDelta : Nat
  influence : List ((Nat × Nat) × Int)
deriving DecidableEq, Repr

/-- Modelled from the spec: operator.Start transitions created to started
and fails on any other status. -/
def opStart (op : Operator) : Operator × Bool :=
  if op.status = OpStatus.created then ({ op with status := OpStatus.started }, true)
  else (op, false)

/-- Modelled from the spec: operator.Cancel transitions a non-terminal
status (created or started) to canceled and fails on terminal statuses. -/
def opCancel (op : Operator) : Operator × Bool :=
  if op.status = OpStatus.created ∨ op.status = OpStatus.started then
    ({ op with status := OpStatus.canceled }, true)
  else (op, false)

/-- Modelled from the spec: operator.Replace transitions a non-terminal
status to replaced (used when a higher-priority operator supersedes a
running one). -/
def opReplace (op : Operator) : Operator × Bool :=
  if op.status = OpStatus.created ∨ op.status = OpStatus.started then
    ({ op with status := OpStatus.replaced }, true)
  else (op, false)

/-- operator.IsEndStatus: the terminal statuses. -/
def isEndStatus : OpStatus → Bool
  | OpStatus.success => true
  | OpStatus.replaced => true
  | OpStatus.canceled => true
  | OpStatus.expiredStatus => true
  | OpStatus.timeout => true
  | _ => false

/-- Modelled from the spec: operator.Check returns the next unfinished
step or nil when done, transitioning started to success when every step
is finished and started to timeout when the running time exceeded the
per-kind cap (abstracted as the timedOut flag; step progress is
pre-encoded in the remaining list, so the region argument is unused). -/
def opCheck (op : Operator) (_region : RegionInfo) : Operator × Option OpStep :=
  match op.remaining with
  | [] =>
      (if op.status = OpStatus.started then { op with status := OpStatus.success } else op,
       none)
  | st :: _ =>
      if op.timedOut ∧ op.status = OpStatus.started then
        ({ op with status := OpStatus.timeout }, none)
      else (op, some st)

/-- Modelled from the spec: the per-step CheckSafety predicate flags
stale state, e.g. a step whose target or source store no longer holds
the expected peer. -/
def stepCheckSafety (step : OpStep) (region : RegionInfo) : Bool :=
  match step with
  | OpStep.transferLeader toStore => (region.getStorePeer toStore).isSome
  | OpStep.removePeer fromStore => (region.getStorePeer fromStore).isSome
  | _ => true

/-- The source of a Dispatch call (the heartbeat / active push / create
string constants). -/
inductive DispatchSource where
  | heartbeat
  | notifierQueue
  | create
deriving DecidableEq, Repr

/-- The cluster facade read by the controller: GetRegion and the
SchedulerMaxWaitingOperator option. -/
structure ClusterCtx where
  regions : List (Nat × RegionInfo)
  maxWaitingOperator : Nat
deriving DecidableEq, Repr

/-- The OperatorController state.  Operator pointers are embedded as
numeric uids into the heap function: distinct live objects have distinct
uids, and every mutation through a pointer is a heap update at its uid.
operators is the running table (regionID to uid), waiting the queue of
the waiting-operator buckets, wopStatusOps the per-description waiting
counts, counts the per-kind running counts, histories the pushed history
entries (by uid), records the buried-operator records (regionID to uid),
notifier the push queue as a time-sorted list (the min-heap), storesLimit
the available tokens per (storeID, limit type), sent the schedule
commands handed to the heartbeat streams, and now the model clock. -/
structure ControllerState where
  heap : Nat → Operator
  operators : List (Nat × Nat)
  waiting : List Nat
  wopStatusOps : List (String × Nat)
  counts : List (Nat × Nat)
  histories : List Nat
  records : List (Nat × Nat)
  notifier : List (Nat × Nat)
  storesLimit : List ((Nat × Nat) × Int)
  sent : List (Nat × OpStep)
  now : Nat

/-- Pointwise heap update (a write through an operator pointer). -/
def updF (h : Nat → Operator) (u : Nat) (op : Operator) : Nat → Operator :=
  fun v => if v = u then op else h v

/-- Install freshly created operator objects (the arguments of AddOperator
and AddWaitingOperator) into the heap at their uids. -/
def installOps (s : ControllerState) (ops : List (Nat × Operator)) : ControllerState :=
  { s with heap := ops.foldl (fun h e => updF h e.1 e.2) s.heap }

/-- 2^64, for the uint64 wraparound arithmetic of the Go counters. -/
def uint64Mod : Nat := 2 ^ 64

/-- OperatorController.updateCounts: recompute the per-kind counts from
the running table. -/
def updateCounts (heap : Nat → Operator) (tbl : List (Nat × Nat)) : List (Nat × Nat) :=
  tbl.foldl
    (fun acc e =>
      let k := (heap e.2).kind
      setA acc k (((lookupA acc k).getD 0 + 1) % uint64Mod))
    []

/-- OperatorController.removeOperatorLocked: delete the operator from the
running table only when the table still holds this very object (pointer
equality, embedded as uid equality). -/
def removeOperatorLocked (s : ControllerState) (u : Nat) : ControllerState × Bool :=
  let regionID := (s.heap u).regionID
  match lookupA s.operators regionID with
  | some cur =>
      if cur = u then
        let tbl := eraseA s.operators regionID
        ({ s with operators := tbl, counts := updateCounts s.heap tbl }, true)
      else (s, false)
  | none => (s, false)

/-- Apply operator.Cancel through the heap. -/
def cancelHeap (s : ControllerState) (u : Nat) : ControllerState :=
  { s with heap := updF s.heap u (opCancel (s.heap u)).1 }

/-- OperatorController.buryOperator: force-cancel a non-terminal operator
(the programming-error path), then record it in the operator records
keyed by region ID. -/
def buryOperator (s : ControllerState) (u : Nat) : ControllerState :=
  let op := s.heap u
  let s1 := if ¬ isEndStatus op.status then cancelHeap s u else s
  { s1 with records := setA s1.records (s1.heap u).regionID u }

/-- OperatorController.RemoveOperator: atomically delete from the running
table; only when the operator was indeed there, cancel and bury it. -/
def removeOperator (s : ControllerState) (u : Nat) : ControllerState × Bool :=
  let s1 := (removeOperatorLocked s u).1
  let removed := (removeOperatorLocked s u).2
  if removed then (buryOperator (cancelHeap s1 u) u, true)
  else (s1, false)

/-- OperatorController.removeOperatorWithoutBury. -/
def removeOperatorWithoutBury (s : ControllerState) (u : Nat) : ControllerState × Bool :=
  removeOperatorLocked s u

/-- Modelled from the spec: storelimit.RegionInfluence per limit type
(0 = add-peer, 1 = remove-peer); a fresh token bucket starts full at this
capacity.  The concrete values are opaque to the proved properties. -/
def regionInfluence (typ : Nat) : Int :=
  if typ = 0 then 1000 else 200

/-- NewTotalOpInfluence: sum the per-(store, type) step costs of the
operators whose region exists in the cluster. -/
def newTotalOpInfluence (c : ClusterCtx) (s : ControllerState) (us : List Nat) :
    List ((Nat × Nat) × Int) :=
  us.foldl
    (fun acc u =>
      match lookupA c.regions (s.heap u).regionID with
      | some _ =>
          (s.heap u).influence.foldl
            (fun acc2 e => setA acc2 e.1 ((lookupA acc2 e.1).getD 0 + e.2)) acc
      | none => acc)
    []

/-- The available tokens of a (storeID, type) bucket; a bucket not yet
created counts as full (getOrCreateStoreLimit creates it full). -/
def availableOf (s : ControllerState) (key : Nat × Nat) : Int :=
  match lookupA s.storesLimit key with
  | some a => a
  | none => regionInfluence key.2

/-- OperatorController.exceedStoreLimit: true when some (store, type) with
a non-zero step cost lacks the tokens for it.  (The bucket creation that
getOrCreateStoreLimit performs as a side effect does not change the
available value and is omitted.) -/
def exceedStoreLimit (c : ClusterCtx) (s : ControllerState) (us : List Nat) : Bool :=
  (newTotalOpInfluence c s us).any (fun e => e.2 ≠ 0 ∧ availableOf s e.1 < e.2)

/-- Modelled from the spec: StoreLimit.Take deducts the cost when enough
tokens remain and otherwise leaves the bucket unchanged. -/
def storeLimitTake (avail cost : Int) : Int :=
  if cost ≤ avail then avail - cost else avail

/-- The store-limit Take loop of addOperatorLocked: only buckets that
already exist are charged, and zero step costs are skipped. -/
def takeLimits (c : ClusterCtx) (s : ControllerState) (u : Nat) : ControllerState :=
  let sl2 :=
    (newTotalOpInfluence c s [u]).foldl
      (fun (sl : List ((Nat × Nat) × Int)) (e : (Nat × Nat) × Int) =>
        match lookupA sl e.1 with
        | some avail => if e.2 = 0 then sl else setA sl e.1 (storeLimitTake avail e.2)
        | none => sl)
      s.storesLimit
  { s with storesLimit := sl2 }

/-- isHigherPriorityOperator. -/
def isHigherPriorityOperator (newOp old : Operator) : Bool :=
  decide (old.priorityLevel < newOp.priorityLevel)

/-- The waiting count of a description. -/
def wopCount (s : ControllerState) (d : String) : Nat :=
  (lookupA s.wopStatusOps d).getD 0

/-- The per-operator conditions of checkAddOperator: region present,
epoch snapshot still current, no same-or-higher-priority operator on the
region, status created, per-description waiting count below the
SchedulerMaxWaitingOperator cap. -/
def checkAddOne (c : ClusterCtx) (s : ControllerState) (u : Nat) : Bool :=
  let op := s.heap u
  match lookupA c.regions op.regionID with
  | none => false
  | some region =>
      if region.epochVer ≠ op.epochVer ∨ region.epochConfVer ≠ op.epochConfVer then false
      else
        let oldOk :=
          match lookupA s.operators op.regionID with
          | some oldU => isHigherPriorityOperator op (s.heap oldU)
          | none => true
        if ! oldOk then false
        else if op.status ≠ OpStatus.created then false
        else if c.maxWaitingOperator ≤ wopCount s op.desc then false
        else true

/-- OperatorController.checkAddOperator: the first loop returns false on
the first operator failing an individual condition; when all pass, the
second loop flags expiry over all operators and the call returns the
negated flag, so the call is false exactly when some individual check
fails or some operator is expired. -/
def checkAddOperator (c : ClusterCtx) (s : ControllerState) (us : List Nat) : Bool :=
  us.all (fun u => checkAddOne c s u) && !(us.any (fun u => (s.heap u).expiredNow))

/-- slowNotifyInterval and fastNotifyInterval, in seconds. -/
def slowNotifyInterval : Nat := 5

/-- fastNotifyInterval. -/
def fastNotifyInterval : Nat := 2

/-- OperatorController.getNextPushOperatorTime: leader and conf-change
steps use the fast cadence, everything else (including a nil step, the
switch default) the slow cadence. -/
def getNextPushOperatorTime (step : Option OpStep) (now : Nat) : Nat :=
  match step with
  | some (OpStep.transferLeader _) => now + fastNotifyInterval
  | some (OpStep.promoteLearner _ _) => now + fastNotifyInterval
  | some (OpStep.demoteFollower _ _) => now + fastNotifyInterval
  | some OpStep.changePeerV2Enter => now + fastNotifyInterval
  | some OpStep.changePeerV2Leave => now + fastNotifyInterval
  | _ => now + slowNotifyInterval

/-- Time-ordered insert into the push queue (the opNotifierQueue heap). -/
def pushNotifier : List (Nat × Nat) → Nat × Nat → List (Nat × Nat)
  | [], e => [e]
  | x :: rest, e => if e.2 < x.2 then e :: x :: rest else x :: pushNotifier rest e

/-- OperatorController.SendScheduleCommand for a concrete step: the
add-peer and add-learner variants are skipped when the target store
already holds a peer, a passive merge sends nothing, and every other
step is encoded and handed to the heartbeat stream (modelled by
appending to sent). -/
def sendScheduleCommand (s : ControllerState) (region : RegionInfo) (step : OpStep) :
    ControllerState :=
  match step with
  | OpStep.addPeer toStore _ =>
      if (region.getStorePeer toStore).isSome then s
      else { s with sent := s.sent ++ [(region.id, step)] }
  | OpStep.addLightPeer toStore _ =>
      if (region.getStorePeer toStore).isSome then s
      else { s with sent := s.sent ++ [(region.id, step)] }
  | OpStep.addLearner toStore _ =>
      if (region.getStorePeer toStore).isSome then s
      else { s with sent := s.sent ++ [(region.id, step)] }
  | OpStep.addLightLearner toStore _ =>
      if (region.getStorePeer toStore).isSome then s
      else { s with sent := s.sent ++ [(region.id, step)] }
  | OpStep.mergeRegion passive =>
      if passive then s
      else { s with sent := s.sent ++ [(region.id, step)] }
  | _ => { s with sent := s.sent ++ [(region.id, step)] }

/-- SendScheduleCommand through a possibly-nil step: the switch on a nil
step falls to the default case, which logs and drops without state
change. -/
def sendScheduleCommandOpt (s : ControllerState) (region : RegionInfo)
    (step : Option OpStep) : ControllerState :=
  match step with
  | some st => sendScheduleCommand s region st
  | none => s

/-- The replace step at the head of addOperatorLocked: when an operator
already occupies the region, remove it from the running table, mark it
replaced (the priority was already checked by admission) and bury it. -/
def replaceOldOperator (s : ControllerState) (regionID : Nat) : ControllerState :=
  match lookupA s.operators regionID with
  | some oldU =>
      let sA := (removeOperatorLocked s oldU).1
      let sB := { sA with heap := updF sA.heap oldU (opReplace (sA.heap oldU)).1 }
      buryOperator sB oldU
  | none => s

/-- The first step returned by op.Check in addOperatorLocked (nil when
the region does not exist or Check reports done). -/
def firstStepOf (c : ClusterCtx) (s : ControllerState) (u : Nat) (regionID : Nat) :
    Option OpStep :=
  match lookupA c.regions regionID with
  | some region => (opCheck (s.heap u) region).2
  | none => none

/-- The check-and-send block of addOperatorLocked: when the region
exists, run op.Check and send the returned step (source create). -/
def checkAndSendFirst (c : ClusterCtx) (s : ControllerState) (u : Nat) (regionID : Nat) :
    ControllerState :=
  match lookupA c.regions regionID with
  | some region =>
      let op2 := (opCheck (s.heap u) region).1
      let sC := { s with heap := updF s.heap u op2 }
      (match (opCheck (s.heap u) region).2 with
       | some st2 => sendScheduleCommand sC region st2
       | none => sC)
  | none => s

/-- OperatorController.addOperatorLocked: replace (remove, mark replaced,
bury) any operator already running on the region, start the new one
(failing on a non-created status), store it in the running table, update
counts, charge the store limits, check-and-send the first step when the
region exists, and push the operator into the push queue with the
cadence of that step. -/
def addOperatorLocked (c : ClusterCtx) (s : ControllerState) (u : Nat) :
    ControllerState × Bool :=
  let regionID := (s.heap u).regionID
  let s1 := replaceOldOperator s regionID
  let op1 := (opStart (s1.heap u)).1
  let ok := (opStart (s1.heap u)).2
  let s2 := { s1 with heap := updF s1.heap u op1 }
  if ! ok then (s2, false)
  else
    let tbl := setA s2.operators regionID u
    let s3 := { s2 with operators := tbl }
    let s4 := takeLimits c s3 u
    let s5 := { s4 with counts := updateCounts s4.heap tbl }
    let step := firstStepOf c s5 u regionID
    let s6 := checkAndSendFirst c s5 u regionID
    ({ s6 with notifier := pushNotifier s6.notifier (u, getNextPushOperatorTime step s6.now) },
     true)

/-- Modelled from the spec: RandBuckets.GetOperator returns the head of a
non-empty bucket, paired with the operator after it when the head is a
merge operator.  The embedding uses one FIFO queue, a deterministic
instance of the randomized fair queue; fairness itself is not among the
properties proved here. -/
def wopGetOperator (heap : Nat → Operator) : List Nat → Option (List Nat × List Nat)
  | [] => none
  | u :: rest =>
      if (heap u).kind &&& opMerge ≠ 0 then
        match rest with
        | v :: rest2 => some ([u, v], rest2)
        | [] => some ([u], [])
      else some ([u], rest)

theorem wopGetOperator_rest_length (heap : Nat → Operator) (w ops rest : List Nat)
    (h : wopGetOperator heap w = some (ops, rest)) : rest.length < w.length := by
  cases w with
  | nil => simp [wopGetOperator] at h
  | cons u rest0 =>
      simp only [wopGetOperator] at h
      by_cases hm : (heap u).kind &&& opMerge ≠ 0
      · rw [if_pos hm] at h
        cases rest0 with
        | nil =>
            simp only [Option.some.injEq, Prod.mk.injEq] at h
            rw [← h.2]
            simp
        | cons v rest2 =>
            simp only [Option.some.injEq, Prod.mk.injEq] at h
            rw [← h.2]
            simp only [List.length_cons]
            omega
      · rw [if_neg hm] at h
        simp only [Option.some.injEq, Prod.mk.injEq] at h
        rw [← h.2]
        simp

/-- The description of the first operator of a dequeued group. -/
def headDesc (s : ControllerState) : List Nat → String
  | [] => ""
  | u :: _ => (s.heap u).desc

/-- Decrement a per-description waiting count (uint64 wraparound). -/
def decWopStatus (s : ControllerState) (d : String) : ControllerState :=
  let n := (lookupA s.wopStatusOps d).getD 0
  { s with wopStatusOps := setA s.wopStatusOps d ((n + (uint64Mod - 1)) % uint64Mod) }

/-- Increment a per-description waiting count (uint64 wraparound). -/
def incWopStatus (s : ControllerState) (d : String) : ControllerState :=
  let n := (lookupA s.wopStatusOps d).getD 0
  { s with wopStatusOps := setA s.wopStatusOps d ((n + 1) % uint64Mod) }

/-- The dequeue loop of PromoteWaitingOperator: drain groups from the
waiting queue; every dequeued group is appended to retOps; a group
failing exceedStoreLimit or checkAddOperator is canceled and buried and
the loop continues; after a group passing the checks the loop continues
only when some operator of the group has both the OpHotRegion and the
OpSplit kind bits (the hot/IO split batching exception), otherwise it
stops.  The waiting queue is threaded explicitly as w for termination. -/
def promoteLoop (c : ClusterCtx) (w : List Nat) (s : ControllerState)
    (retOps : List Nat) : ControllerState × List Nat :=
  match hw : wopGetOperator s.heap w with
  | none => ({ s with waiting := w }, retOps)
  | some (ops, rest) =>
      let s1 := { s with waiting := rest }
      let retOps2 := retOps ++ ops
      if exceedStoreLimit c s1 ops || ! checkAddOperator c s1 ops then
        let s2 := ops.foldl (fun st u => buryOperator (cancelHeap st u) u) s1
        let s3 := decWopStatus s2 (headDesc s1 ops)
        promoteLoop c rest s3 retOps2
      else
        let s2 := decWopStatus s1 (headDesc s1 ops)
        if ops.any (fun u =>
            (s2.heap u).kind &&& opHotRegion ≠ 0 ∧ (s2.heap u).kind &&& opSplit ≠ 0) then
          promoteLoop c rest s2 retOps2
        else (s2, retOps2)
termination_by w.length
decreasing_by
  all_goals exact wopGetOperator_rest_length _ _ _ _ hw

/-- The trailing loop of PromoteWaitingOperator: addOperatorLocked each
collected operator, stopping at the first failure. -/
def addOpsStartLoop (c : ClusterCtx) : ControllerState → List Nat → ControllerState
  | s, [] => s
  | s, u :: rest =>
      let s1 := (addOperatorLocked c s u).1
      if (addOperatorLocked c s u).2 then addOpsStartLoop c s1 rest else s1

/-- OperatorController.PromoteWaitingOperator. -/
def promoteWaitingOperator (c : ClusterCtx) (s : ControllerState) : ControllerState :=
  addOpsStartLoop c (promoteLoop c s.waiting s []).1 (promoteLoop c s.waiting s []).2

/-- How AddWaitingOperator exited: the loop ran to completion, an
operator was rejected by checkAddOperator, an OpMerge operator arrived
last (orphan), or an OpMerge operator was followed by a non-merge one. -/
inductive AWExit where
  | completed
  | rejected
  | orphanMerge
  | mispairedMerge
deriving DecidableEq, Repr

/-- The result of AddWaitingOperator: the final state, the returned
count of admitted operators, whether PromoteWaitingOperator was invoked
before returning, and the exit path taken. -/
structure AWResult where
  state : ControllerState
  added : Nat
  promoted : Bool
  exitKind : AWExit

/-- The loop of AddWaitingOperator over the installed uids.  On
completion the controller unlocks and promotes; a checkAddOperator
rejection cancels and buries the operator (both operators of a merge
pair), unlocks, promotes and returns the count so far; an orphan or
mispaired merge logs an error and returns the count so far without
promoting; otherwise the operator (or merge pair) is put into the
waiting queue, the per-description count incremented, and the loop
continues. -/
def addWaitingLoop (c : ClusterCtx) (s : ControllerState) :
    List Nat → Nat → AWResult
  | [], added => ⟨promoteWaitingOperator c s, added, true, AWExit.completed⟩
  | u :: rest, added =>
      let op := s.heap u
      if op.kind &&& opMerge ≠ 0 then
        match rest with
        | [] => ⟨s, added, false, AWExit.orphanMerge⟩
        | v :: rest2 =>
            if (s.heap v).kind &&& opMerge = 0 then
              ⟨s, added, false, AWExit.mispairedMerge⟩
            else if ! checkAddOperator c s [u] then
              let s1 := buryOperator (cancelHeap s u) u
              let s2 := buryOperator (cancelHeap s1 v) v
              ⟨promoteWaitingOperator c s2, added, true, AWExit.rejected⟩
            else
              let s1 := { s with waiting := s.waiting ++ [u, v] }
              let s2 := incWopStatus s1 op.desc
              addWaitingLoop c s2 rest2 (added + 2)
      else if ! checkAddOperator c s [u] then
        ⟨promoteWaitingOperator c (buryOperator (cancelHeap s u) u), added, true,
          AWExit.rejected⟩
      else
        let s1 := { s with waiting := s.waiting ++ [u] }
        let s2 := incWopStatus s1 op.desc
        addWaitingLoop c s2 rest (added + 1)
termination_by us _ => us.length
decreasing_by
  all_goals simp_wf
  all_goals omega

/-- OperatorController.AddWaitingOperator: install the argument objects
into the heap, then run the loop. -/
def addWaitingOperator (c : ClusterCtx) (s : ControllerState)
    (ops : List (Nat × Operator)) : AWResult :=
  addWaitingLoop c (installOps s ops) (ops.map Prod.fst) 0

/-- The loop of AddOperator over the accepted operators. -/
def addOperatorList (c : ClusterCtx) : ControllerState → List Nat → ControllerState × Bool
  | s, [] => (s, true)
  | s, u :: rest =>
      let s1 := (addOperatorLocked c s u).1
      if (addOperatorLocked c s u).2 then addOperatorList c s1 rest else (s1, false)

/-- OperatorController.AddOperator: when the group exceeds a store limit
or fails checkAddOperator, cancel and bury every operator and admit
nothing; otherwise addOperatorLocked each in turn. -/
def addOperator (c : ClusterCtx) (s : ControllerState) (ops : List (Nat × Operator)) :
    ControllerState × Bool :=
  let s0 := installOps s ops
  let us := ops.map Prod.fst
  if exceedStoreLimit c s0 us || ! checkAddOperator c s0 us then
    (us.foldl (fun st u => buryOperator (cancelHeap st u) u) s0, false)
  else addOperatorList c s0 us

/-- The conf-version half of checkStaleOperator: Go computes
latest.ConfVer - origin.ConfVer in uint64 arithmetic (wrapping on a
stale report), and removes the operator when the difference exceeds
ConfVerChanged. -/
def checkStaleConfVer (c : ClusterCtx) (s : ControllerState) (u : Nat)
    (region : RegionInfo) : ControllerState × Bool :=
  let op := s.heap u
  let changes := (region.epochConfVer + uint64Mod - op.epochConfVer) % uint64Mod
  if op.confVerDelta < changes then
    let s1 := (removeOperator s u).1
    if (removeOperator s u).2 then (promoteWaitingOperator c s1, true) else (s1, false)
  else (s, false)

/-- OperatorController.checkStaleOperator: a failing step safety check
removes the operator, promotes a waiter and reports handled; otherwise
(or when the remove found the operator already gone) the conf-version
check runs. -/
def checkStaleOperator (c : ClusterCtx) (s : ControllerState) (u : Nat)
    (step : Option OpStep) (region : RegionInfo) : ControllerState × Bool :=
  match step with
  | some st =>
      if ! stepCheckSafety st region then
        let s1 := (removeOperator s u).1
        if (removeOperator s u).2 then (promoteWaitingOperator c s1, true)
        else checkStaleConfVer c s1 u region
      else checkStaleConfVer c s u region
  | none => checkStaleConfVer c s u region

/-- OperatorController.pushHistory: push the finished operator's history
entries (modelled by its uid) to the front. -/
def pushHistory (s : ControllerState) (u : Nat) : ControllerState :=
  { s with histories := u :: s.histories }

/-- OperatorController.Dispatch. -/
def dispatch (c : ClusterCtx) (s : ControllerState) (region : RegionInfo)
    (source : DispatchSource) : ControllerState :=
  match lookupA s.operators region.id with
  | none => s
  | some u =>
      let op1 := (opCheck (s.heap u) region).1
      let step := (opCheck (s.heap u) region).2
      let s1 := { s with heap := updF s.heap u op1 }
      match op1.status with
      | OpStatus.started =>
          if source = DispatchSource.heartbeat then
            let s2 := (checkStaleOperator c s1 u step region).1
            if (checkStaleOperator c s1 u step region).2 then s2
            else sendScheduleCommandOpt s2 region step
          else sendScheduleCommandOpt s1 region step
      | OpStatus.success =>
          let s2 := pushHistory s1 u
          let s3 := (removeOperator s2 u).1
          if (removeOperator s2 u).2 then promoteWaitingOperator c s3 else s3
      | OpStatus.timeout =>
          let s2 := (removeOperator s1 u).1
          if (removeOperator s1 u).2 then promoteWaitingOperator c s2 else s2
      | _ =>
          let s2 := (removeOperatorWithoutBury s1 u).1
          if (removeOperatorWithoutBury s1 u).2 then
            let s3 := cancelHeap s2 u
            promoteWaitingOperator c (buryOperator s3 u)
          else s2

/-- OperatorController.pollNeedDispatchRegion: pop the head of the push
queue; discard the entry when its operator is no longer the region's
running operator; remove, cancel and bury the running operator when the
region disappeared; return the region without re-pushing when Check
reports no further step; push back and stop when the entry is not due
yet; otherwise re-push with the next cadence and return the region. -/
def pollNeedDispatchRegion (c : ClusterCtx) (s : ControllerState) :
    ControllerState × Option RegionInfo × Bool :=
  match s.notifier with
  | [] => (s, none, false)
  | (itemU, t) :: rest =>
      let s0 := { s with notifier := rest }
      let regionID := (s0.heap itemU).regionID
      match lookupA s0.operators regionID with
      | none => (s0, none, true)
      | some u =>
          match lookupA c.regions regionID with
          | none =>
              let s1 := (removeOperatorLocked s0 u).1
              let s2 := cancelHeap s1 u
              (buryOperator s2 u, none, true)
          | some region =>
              let op1 := (opCheck (s0.heap u) region).1
              let step := (opCheck (s0.heap u) region).2
              let s1 := { s0 with heap := updF s0.heap u op1 }
              match step with
              | none => (s1, some region, true)
              | some st =>
                  if s1.now < t then
                    ({ s1 with notifier := pushNotifier s1.notifier (itemU, t) }, none, false)
                  else
                    let q := pushNotifier s1.notifier
                      (itemU, getNextPushOperatorTime (some st) s1.now)
                    ({ s1 with notifier := q }, some region, true)

/-- OperatorController.PushOperators: iterate pollNeedDispatchRegion,
dispatching every returned region with the active-push source, until the
poll reports the end.  The Go loop is unbounded; its termination rests
on re-pushed entries lying in the future, so the embedding carries
explicit fuel, and the returned list records the dispatched regions of
the round. -/
def pushOperators (c : ClusterCtx) (s : ControllerState) :
    Nat → ControllerState × List RegionInfo
  | 0 => (s, [])
  | fuel + 1 =>
      match pollNeedDispatchRegion c s with
      | (s1, _, false) => (s1, [])
      | (s1, none, true) => pushOperators c s1 fuel
      | (s1, some region, true) =>
          let s2 := dispatch c s1 region DispatchSource.notifierQueue
          let (s3, regions) := pushOperators c s2 fuel
          (s3, region :: regions)

/-! ### The at-most-one-running-operator-per-region invariant -/

/-- The invariant of the running table: region keys are unique (the Go
map structure) and every entry's stored operator object carries the
region ID it is filed under (addOperatorLocked only ever stores an
operator at its own region key). -/
def Inv (s : ControllerState) : Prop :=
  (s.operators.map Prod.fst).Nodup ∧ ∀ e ∈ s.operators, (s.heap e.2).regionID = e.1

instance (s : ControllerState) : Decidable (Inv s) := by
  unfold Inv; infer_instance

/-- The running-table entries whose stored operator has region ID r. -/
def runningWithRegion (s : ControllerState) (r : Nat) : List (Nat × Nat) :=
  s.operators.filter (fun e => (s.heap e.2).regionID = r)

theorem length_filter_le_one_of_keyed {l : List (Nat × Nat)}
    (hnd : (l.map Prod.fst).Nodup) (p : Nat × Nat → Bool) (r : Nat)
    (hall : ∀ e ∈ l, p e = true → e.1 = r) : (l.filter p).length ≤ 1 := by
  induction l with
  | nil => simp
  | cons e rest ih =>
      simp only [List.map_cons, List.nodup_cons] at hnd
      by_cases hp : p e = true
      · have hrest : ∀ e2 ∈ rest, ¬ p e2 = true := by
          intro e2 he2 hp2
          have h1 : e2.1 = r := hall e2 (List.mem_cons_of_mem _ he2) hp2
          have h2 : e.1 = r := hall e (List.mem_cons_self _ _) hp
          exact hnd.1 (h2 ▸ h1 ▸ List.mem_map.2 ⟨e2, he2, rfl⟩)
        have : rest.filter p = [] := List.filter_eq_nil_iff.2 hrest
        simp [List.filter_cons, hp, this]
      · simp only [List.filter_cons, hp, if_false]
        exact ih hnd.2 (fun e2 he2 => hall e2 (List.mem_cons_of_mem _ he2))

/-- The invariant bounds the number of running operators of any region
by one. -/
theorem inv_at_most_one (s : ControllerState) (h : Inv s) (r : Nat) :
    (runningWithRegion s r).length ≤ 1 := by
  refine length_filter_le_one_of_keyed h.1 _ r (fun e he hp => ?_)
  have := h.2 e he
  simp only [decide_eq_true_eq] at hp
  rw [← this, hp]

theorem opStart_regionID (op : Operator) : ((opStart op).1).regionID = op.regionID := by
  unfold opStart; split <;> rfl

theorem opCancel_regionID (op : Operator) : ((opCancel op).1).regionID = op.regionID := by
  unfold opCancel; split <;> rfl

theorem opReplace_regionID (op : Operator) : ((opReplace op).1).regionID = op.regionID := by
  unfold opReplace; split <;> rfl

theorem opCheck_regionID (op : Operator) (r : RegionInfo) :
    ((opCheck op r).1).regionID = op.regionID := by
  unfold opCheck
  rcases op.remaining with _ | ⟨st, rest⟩ <;> simp only
  · split <;> rfl
  · split <;> rfl

/-- Transporting the invariant across a state whose running table is
unchanged and whose heap assigns every uid the same region ID. -/
theorem inv_mk {s1 s2 : ControllerState} (h : Inv s1)
    (htbl : s2.operators = s1.operators)
    (hheap : ∀ u, (s2.heap u).regionID = (s1.heap u).regionID) : Inv s2 := by
  refine ⟨htbl ▸ h.1, fun e he => ?_⟩
  rw [htbl] at he
  rw [hheap e.2, h.2 e he]

theorem updF_regionID {h : Nat → Operator} {u : Nat} {op : Operator}
    (hop : op.regionID = (h u).regionID) (v : Nat) :
    (updF h u op v).regionID = (h v).regionID := by
  unfold updF
  by_cases hv : v = u
  · subst hv; simp [hop]
  · simp [hv]

theorem inv_cancelHeap {s : ControllerState} (h : Inv s) (u : Nat) :
    Inv (cancelHeap s u) := by
  refine inv_mk h rfl (fun v => ?_)
  exact updF_regionID (opCancel_regionID _) v

theorem cancelHeap_operators (s : ControllerState) (u : Nat) :
    (cancelHeap s u).operators = s.operators := rfl

theorem cancelHeap_regionID (s : ControllerState) (u v : Nat) :
    ((cancelHeap s u).heap v).regionID = (s.heap v).regionID :=
  updF_regionID (opCancel_regionID _) v

theorem inv_buryOperator {s : ControllerState} (h : Inv s) (u : Nat) :
    Inv (buryOperator s u) := by
  unfold buryOperator
  dsimp only
  split
  · exact inv_mk (inv_cancelHeap h u) rfl (fun _ => rfl)
  · exact inv_mk h rfl (fun _ => rfl)

theorem buryOperator_operators (s : ControllerState) (u : Nat) :
    (buryOperator s u).operators = s.operators := by
  unfold buryOperator
  dsimp only
  split <;> rfl

theorem buryOperator_regionID (s : ControllerState) (u v : Nat) :
    ((buryOperator s u).heap v).regionID = (s.heap v).regionID := by
  unfold buryOperator
  dsimp only
  split
  · exact cancelHeap_regionID s u v
  · rfl

theorem inv_removeOperatorLocked {s : ControllerState} (h : Inv s) (u : Nat) :
    Inv (removeOperatorLocked s u).1 := by
  unfold removeOperatorLocked
  dsimp only
  split
  · split
    · exact ⟨nodup_keys_eraseA _ _ h.1, fun e he => h.2 e (mem_eraseA he)⟩
    · exact h
  · exact h

theorem removeOperatorLocked_regionID (s : ControllerState) (u v : Nat) :
    (((removeOperatorLocked s u).1).heap v).regionID = (s.heap v).regionID := by
  unfold removeOperatorLocked
  dsimp only
  split
  · split <;> rfl
  · rfl

theorem inv_removeOperator {s : ControllerState} (h : Inv s) (u : Nat) :
    Inv (removeOperator s u).1 := by
  unfold removeOperator
  simp only
  split
  · exact inv_buryOperator (inv_cancelHeap (inv_removeOperatorLocked h u) u) u
  · exact inv_removeOperatorLocked h u

theorem inv_replaceOldOperator {s : ControllerState} (h : Inv s) (r : Nat) :
    Inv (replaceOldOperator s r) := by
  unfold replaceOldOperator
  split
  · rename_i oldU heq
    dsimp only
    apply inv_buryOperator
    refine inv_mk (inv_removeOperatorLocked h oldU) ?_ ?_
    · rfl
    · intro v
      exact updF_regionID (opReplace_regionID _) v
  · exact h

theorem replaceOldOperator_regionID (s : ControllerState) (r v : Nat) :
    ((replaceOldOperator s r).heap v).regionID = (s.heap v).regionID := by
  unfold replaceOldOperator
  split
  · rw [buryOperator_regionID]
    dsimp only
    rw [updF_regionID (opReplace_regionID _) v, removeOperatorLocked_regionID]
  · rfl

theorem takeLimits_operators (c : ClusterCtx) (s : ControllerState) (u : Nat) :
    (takeLimits c s u).operators = s.operators := rfl

theorem takeLimits_heap (c : ClusterCtx) (s : ControllerState) (u : Nat) :
    (takeLimits c s u).heap = s.heap := rfl

theorem checkAndSendFirst_operators (c : ClusterCtx) (s : ControllerState) (u r : Nat) :
    (checkAndSendFirst c s u r).operators = s.operators := by
  unfold checkAndSendFirst
  split
  · dsimp only
    split
    · unfold sendScheduleCommand
      split <;> (try split) <;> rfl
    · rfl
  · rfl

theorem sendScheduleCommand_operators (s : ControllerState) (region : RegionInfo)
    (st : OpStep) : (sendScheduleCommand s region st).operators = s.operators := by
  unfold sendScheduleCommand
  split <;> (try split) <;> rfl

theorem sendScheduleCommand_heap (s : ControllerState) (region : RegionInfo)
    (st : OpStep) : (sendScheduleCommand s region st).heap = s.heap := by
  unfold sendScheduleCommand
  split <;> (try split) <;> rfl

theorem checkAndSendFirst_regionID (c : ClusterCtx) (s : ControllerState) (u r v : Nat) :
    ((checkAndSendFirst c s u r).heap v).regionID = (s.heap v).regionID := by
  unfold checkAndSendFirst
  split
  · dsimp only
    split
    · rw [sendScheduleCommand_heap]
      exact updF_regionID (opCheck_regionID _ _) v
    · exact updF_regionID (opCheck_regionID _ _) v
  · rfl

/-- Inserting an operator into the running table at its own region key
preserves the invariant. -/
theorem inv_insert_self {s : ControllerState} (h : Inv s) (u : Nat) {s2 : ControllerState}
    (htbl : s2.operators = setA s.operators ((s.heap u).regionID) u)
    (hheap : ∀ v, (s2.heap v).regionID = (s.heap v).regionID) : Inv s2 := by
  constructor
  · rw [htbl]
    exact nodup_keys_setA _ _ _ h.1
  · intro e he
    rw [htbl] at he
    rcases mem_setA he with h2 | h2
    · rw [h2]
      exact hheap u
    · rw [hheap e.2, h.2 e h2]

/-- Transporting the invariant across a state rebuild leaving the
running table and the heap unchanged. -/
theorem inv_rebuild {s : ControllerState} (h : Inv s) {s2 : ControllerState}
    (htbl : s2.operators = s.operators) (hheap : s2.heap = s.heap) : Inv s2 :=
  inv_mk h htbl (fun u => by rw [hheap])

theorem inv_addOperatorLocked {c : ClusterCtx} {s : ControllerState} (h : Inv s) (u : Nat) :
    Inv (addOperatorLocked c s u).1 := by
  unfold addOperatorLocked
  dsimp only
  have h1 : Inv (replaceOldOperator s ((s.heap u).regionID)) :=
    inv_replaceOldOperator h _
  split
  · refine inv_mk h1 rfl (fun v => ?_)
    exact updF_regionID (opStart_regionID _) v
  · refine inv_insert_self h1 u ?_ ?_
    · rw [checkAndSendFirst_operators]
      dsimp only
      rw [takeLimits_operators]
      dsimp only
      rw [replaceOldOperator_regionID]
    · intro v
      rw [checkAndSendFirst_regionID]
      dsimp only
      rw [takeLimits_heap]
      dsimp only
      exact updF_regionID (opStart_regionID _) v

theorem inv_cancelBuryFold {s : ControllerState} (h : Inv s) (us : List Nat) :
    Inv (us.foldl (fun st u => buryOperator (cancelHeap st u) u) s) := by
  induction us generalizing s with
  | nil => exact h
  | cons u rest ih =>
      simp only [List.foldl_cons]
      exact ih (inv_buryOperator (inv_cancelHeap h u) u)

theorem inv_decWopStatus {s : ControllerState} (h : Inv s) (d : String) :
    Inv (decWopStatus s d) := inv_rebuild h rfl rfl

theorem inv_incWopStatus {s : ControllerState} (h : Inv s) (d : String) :
    Inv (incWopStatus s d) := inv_rebuild h rfl rfl

theorem inv_promoteLoop (c : ClusterCtx) (w : List Nat) (s : ControllerState)
    (retOps : List Nat) : Inv s → Inv (promoteLoop c w s retOps).1 := by
  induction w, s, retOps using promoteLoop.induct c with
  | case1 w s retOps hw =>
      intro h
      rw [promoteLoop]
      split
      · exact inv_rebuild h rfl rfl
      · rename_i heq
        rw [hw] at heq
        cases heq
  | case2 w s retOps ops rest hw s1 retOps2 hcond s2 s3 ih =>
      intro h
      unfold_let s3 s2 retOps2 s1 at hcond ih
      rw [promoteLoop]
      split
      · rename_i heq
        rw [hw] at heq
        cases heq
      · rename_i ops2 rest2 heq
        rw [hw] at heq
        injection heq with heq2
        injection heq2 with hops hrest
        subst hops
        subst hrest
        dsimp only
        rw [if_pos hcond]
        refine ih ?_
        refine inv_decWopStatus ?_ _
        refine inv_cancelBuryFold ?_ ops
        refine inv_rebuild h ?_ ?_ <;> rfl
  | case3 w s retOps ops rest hw s1 retOps2 hok s2 hany ih =>
      intro h
      unfold_let s2 retOps2 s1 at hok hany ih
      rw [promoteLoop]
      split
      · rename_i heq
        rw [hw] at heq
        cases heq
      · rename_i ops2 rest2 heq
        rw [hw] at heq
        injection heq with heq2
        injection heq2 with hops hrest
        subst hops
        subst hrest
        dsimp only
        rw [if_neg hok, if_pos hany]
        refine ih ?_
        refine inv_decWopStatus ?_ _
        refine inv_rebuild h ?_ ?_ <;> rfl
  | case4 w s retOps ops rest hw s1 hok s2 hnotany =>
      intro h
      unfold_let s2 s1 at hok hnotany
      rw [promoteLoop]
      split
      · rename_i heq
        rw [hw] at heq
        cases heq
      · rename_i ops2 rest2 heq
        rw [hw] at heq
        injection heq with heq2
        injection heq2 with hops hrest
        subst hops
        subst hrest
        dsimp only
        rw [if_neg hok, if_neg hnotany]
        refine inv_decWopStatus ?_ _
        refine inv_rebuild h ?_ ?_ <;> rfl

theorem inv_addOpsStartLoop (c : ClusterCtx) :
    ∀ (s : ControllerState) (us : List Nat), Inv s → Inv (addOpsStartLoop c s us) := by
  intro s us
  induction us generalizing s with
  | nil => exact fun h => h
  | cons u rest ih =>
      intro h
      simp only [addOpsStartLoop]
      split
      · exact ih _ (inv_addOperatorLocked h u)
      · exact inv_addOperatorLocked h u

theorem inv_promoteWaitingOperator {c : ClusterCtx} {s : ControllerState} (h : Inv s) :
    Inv (promoteWaitingOperator c s) :=
  inv_addOpsStartLoop c _ _ (inv_promoteLoop c s.waiting s [] h)

theorem inv_checkStaleConfVer {c : ClusterCtx} {s : ControllerState} (h : Inv s)
    (u : Nat) (region : RegionInfo) : Inv (checkStaleConfVer c s u region).1 := by
  unfold checkStaleConfVer
  dsimp only
  split
  · split
    · exact inv_promoteWaitingOperator (inv_removeOperator h u)
    · exact inv_removeOperator h u
  · exact h

theorem inv_checkStaleOperator {c : ClusterCtx} {s : ControllerState} (h : Inv s)
    (u : Nat) (step : Option OpStep) (region : RegionInfo) :
    Inv (checkStaleOperator c s u step region).1 := by
  rcases step with _ | st
  · simp only [checkStaleOperator]
    exact inv_checkStaleConfVer h u region
  · simp only [checkStaleOperator]
    by_cases hsafe : (! stepCheckSafety st region) = true
    · rw [if_pos hsafe]
      by_cases hrem : (removeOperator s u).2 = true
      · rw [if_pos hrem]
        exact inv_promoteWaitingOperator (inv_removeOperator h u)
      · rw [if_neg hrem]
        exact inv_checkStaleConfVer (inv_removeOperator h u) u region
    · rw [if_neg hsafe]
      exact inv_checkStaleConfVer h u region

theorem sendScheduleCommandOpt_operators (s : ControllerState) (region : RegionInfo)
    (step : Option OpStep) : (sendScheduleCommandOpt s region step).operators = s.operators := by
  unfold sendScheduleCommandOpt
  rcases step with _ | st
  · rfl
  · exact sendScheduleCommand_operators s region st

theorem sendScheduleCommandOpt_heap (s : ControllerState) (region : RegionInfo)
    (step : Option OpStep) : (sendScheduleCommandOpt s region step).heap = s.heap := by
  unfold sendScheduleCommandOpt
  rcases step with _ | st
  · rfl
  · exact sendScheduleCommand_heap s region st

theorem inv_sendScheduleCommandOpt {s : ControllerState} (h : Inv s) (region : RegionInfo)
    (step : Option OpStep) : Inv (sendScheduleCommandOpt s region step) :=
  inv_rebuild h (sendScheduleCommandOpt_operators s region step)
    (sendScheduleCommandOpt_heap s region step)

theorem inv_pushHistory {s : ControllerState} (h : Inv s) (u : Nat) :
    Inv (pushHistory s u) := inv_rebuild h rfl rfl

theorem inv_dispatch {c : ClusterCtx} {s : ControllerState} (h : Inv s)
    (region : RegionInfo) (source : DispatchSource) :
    Inv (dispatch c s region source) := by
  unfold dispatch
  split
  · exact h
  · rename_i u hu
    dsimp only
    have h1 : Inv { s with heap := updF s.heap u (opCheck (s.heap u) region).1 } :=
      inv_mk h rfl (fun v => updF_regionID (opCheck_regionID _ _) v)
    split
    · split
      · split
        · exact (inv_checkStaleOperator h1 u _ region)
        · exact inv_sendScheduleCommandOpt (inv_checkStaleOperator h1 u _ region) region _
      · exact inv_sendScheduleCommandOpt h1 region _
    · split
      · exact inv_promoteWaitingOperator (inv_removeOperator (inv_pushHistory h1 u) u)
      · exact inv_removeOperator (inv_pushHistory h1 u) u
    · split
      · exact inv_promoteWaitingOperator (inv_removeOperator h1 u)
      · exact inv_removeOperator h1 u
    · split
      · exact inv_promoteWaitingOperator
          (inv_buryOperator (inv_cancelHeap (inv_removeOperatorLocked h1 u) u) u)
      · exact inv_removeOperatorLocked h1 u

theorem foldl_updF_not_mem (ops : List (Nat × Operator)) (h0 : Nat → Operator) (v : Nat)
    (hv : ∀ e ∈ ops, v ≠ e.1) :
    (ops.foldl (fun h e => updF h e.1 e.2) h0) v = h0 v := by
  induction ops generalizing h0 with
  | nil => rfl
  | cons e rest ih =>
      simp only [List.foldl_cons]
      rw [ih _ (fun e2 he2 => hv e2 (List.mem_cons_of_mem _ he2))]
      unfold updF
      rw [if_neg (hv e (List.mem_cons_self _ _))]

/-- The argument operators of AddOperator / AddWaitingOperator are
freshly created objects: their uids are not in the running table. -/
def FreshUids (s : ControllerState) (ops : List (Nat × Operator)) : Prop :=
  ∀ e ∈ ops, ∀ e2 ∈ s.operators, e2.2 ≠ e.1

instance (s : ControllerState) (ops : List (Nat × Operator)) : Decidable (FreshUids s ops) := by
  unfold FreshUids; infer_instance

theorem inv_installOps {s : ControllerState} (h : Inv s) (ops : List (Nat × Operator))
    (hf : FreshUids s ops) : Inv (installOps s ops) := by
  refine ⟨h.1, fun e he => ?_⟩
  have : (installOps s ops).heap e.2 = s.heap e.2 := by
    unfold installOps
    dsimp only
    exact foldl_updF_not_mem ops s.heap e.2 (fun e2 he2 => hf e2 he2 e he)
  rw [this]
  exact h.2 e he

theorem inv_addWaitingLoop (c : ClusterCtx) (s : ControllerState) (us : List Nat)
    (added : Nat) : Inv s → Inv (addWaitingLoop c s us added).state := by
  induction s, us, added using addWaitingLoop.induct c with
  | case1 s added =>
      intro h
      simp only [addWaitingLoop]
      exact inv_promoteWaitingOperator h
  | case2 s u added op hm =>
      intro h
      unfold_let op at hm
      simp only [addWaitingLoop]
      rw [if_pos hm]
      exact h
  | case3 s u added op hm v rest hpair0 =>
      intro h
      unfold_let op at hm
      simp only [addWaitingLoop]
      rw [if_pos hm, if_pos hpair0]
      exact h
  | case4 s u added op hm v rest hpair hrej =>
      intro h
      unfold_let op at hm
      simp only [addWaitingLoop]
      rw [if_pos hm, if_neg hpair, if_pos hrej]
      exact inv_promoteWaitingOperator
        (inv_buryOperator (inv_cancelHeap (inv_buryOperator (inv_cancelHeap h u) u) v) v)
  | case5 s u added op hm v rest hpair hok s1 s2 ih =>
      intro h
      unfold_let op at hm
      unfold_let s2 s1 op at ih
      simp only [addWaitingLoop]
      rw [if_pos hm, if_neg hpair, if_neg hok]
      refine ih ?_
      refine inv_incWopStatus ?_ _
      refine inv_rebuild h ?_ ?_ <;> rfl
  | case6 s u rest added op hm0 hrej =>
      intro h
      unfold_let op at hm0
      unfold addWaitingLoop
      dsimp only
      rw [if_neg hm0, if_pos hrej]
      exact inv_promoteWaitingOperator (inv_buryOperator (inv_cancelHeap h u) u)
  | case7 s u rest added op hm0 hok s1 s2 ih =>
      intro h
      unfold_let op at hm0
      unfold_let s2 s1 op at ih
      unfold addWaitingLoop
      dsimp only
      rw [if_neg hm0, if_neg hok]
      refine ih ?_
      refine inv_incWopStatus ?_ _
      refine inv_rebuild h ?_ ?_ <;> rfl

theorem inv_addWaitingOperator {c : ClusterCtx} {s : ControllerState} (h : Inv s)
    (ops : List (Nat × Operator)) (hf : FreshUids s ops) :
    Inv (addWaitingOperator c s ops).state :=
  inv_addWaitingLoop c _ _ 0 (inv_installOps h ops hf)

theorem inv_addOperatorList (c : ClusterCtx) :
    ∀ (s : ControllerState) (us : List Nat), Inv s → Inv (addOperatorList c s us).1 := by
  intro s us
  induction us generalizing s with
  | nil => exact fun h => h
  | cons u rest ih =>
      intro h
      simp only [addOperatorList]
      split
      · exact ih _ (inv_addOperatorLocked h u)
      · exact inv_addOperatorLocked h u

theorem inv_addOperator {c : ClusterCtx} {s : ControllerState} (h : Inv s)
    (ops : List (Nat × Operator)) (hf : FreshUids s ops) :
    Inv (addOperator c s ops).1 := by
  unfold addOperator
  dsimp only
  split
  · exact inv_cancelBuryFold (inv_installOps h ops hf) _
  · exact inv_addOperatorList c _ _ (inv_installOps h ops hf)

theorem mem_eraseA_ne {κ α : Type} [DecidableEq κ] {l : List (κ × α)} {k : κ} {e : κ × α}
    (hnd : (l.map Prod.fst).Nodup) (h : e ∈ eraseA l k) : e.1 ≠ k := by
  induction l with
  | nil => simp [eraseA] at h
  | cons a rest ih =>
      obtain ⟨k1, v1⟩ := a
      simp only [List.map_cons, List.nodup_cons] at hnd
      simp only [eraseA] at h
      by_cases hk : k1 = k
      · rw [if_pos hk] at h
        intro hek
        exact hnd.1 (hk ▸ hek ▸ List.mem_map.2 ⟨e, h, rfl⟩)
      · rw [if_neg hk] at h
        rcases List.mem_cons.1 h with he | h2
        · rw [he]; exact hk
        · exact ih hnd.2 h2

theorem checkAndSendFirst_heap_ne (c : ClusterCtx) (s : ControllerState) (u r v : Nat)
    (hne : v ≠ u) : (checkAndSendFirst c s u r).heap v = s.heap v := by
  unfold checkAndSendFirst
  split
  · dsimp only
    split
    · rw [sendScheduleCommand_heap]
      simp [updF, hne]
    · simp [updF, hne]
  · rfl

/-- The replace step of addOperatorLocked on an occupied region: the old
operator leaves the running table and its status becomes replaced, while
other heap cells are untouched. -/
theorem replaceOldOperator_spec {s : ControllerState} {u oldU : Nat} (h : Inv s)
    (hold : lookupA s.operators (s.heap u).regionID = some oldU)
    (hstarted : (s.heap oldU).status = OpStatus.started) :
    (replaceOldOperator s (s.heap u).regionID).operators
        = eraseA s.operators (s.heap u).regionID
    ∧ ((replaceOldOperator s (s.heap u).regionID).heap oldU).status = OpStatus.replaced
    ∧ ∀ v, v ≠ oldU → (replaceOldOperator s (s.heap u).regionID).heap v = s.heap v := by
  have hmem : ((s.heap u).regionID, oldU) ∈ s.operators := lookupA_mem hold
  have hrold : (s.heap oldU).regionID = (s.heap u).regionID := h.2 _ hmem
  have hrem : removeOperatorLocked s oldU =
      ({ s with
          operators := eraseA s.operators (s.heap u).regionID,
          counts := updateCounts s.heap (eraseA s.operators (s.heap u).regionID) }, true) := by
    unfold removeOperatorLocked
    dsimp only
    rw [hrold]
    split
    · rename_i cur hcur
      rw [hold] at hcur
      injection hcur with hcur
      rw [if_pos hcur.symm]
    · rename_i hcur
      rw [hold] at hcur
      exact absurd hcur (by simp)
  have hrep : (opReplace (s.heap oldU)).1
      = { s.heap oldU with status := OpStatus.replaced } := by
    unfold opReplace
    rw [if_pos (Or.inr hstarted)]
  unfold replaceOldOperator
  split
  · rename_i oldU2 hcur
    rw [hold] at hcur
    injection hcur with hcur
    subst hcur
    dsimp only
    rw [hrem]
    dsimp only
    rw [hrep]
    unfold buryOperator
    dsimp only
    rw [if_neg (not_not_intro (by simp [updF, isEndStatus]))]
    refine ⟨rfl, ?_, ?_⟩
    · simp [updF]
    · intro v hv
      simp [updF, hv]
  · rename_i hcur
    rw [hold] at hcur
    exact absurd hcur (by simp)

/-- addOperatorLocked on an occupied region: the call succeeds, the old
operator's status becomes replaced, it vanishes from the running table
and the new operator takes the region's slot. -/
theorem addOperatorLocked_replace {c : ClusterCtx} {s : ControllerState} {u oldU : Nat}
    (h : Inv s) (hold : lookupA s.operators (s.heap u).regionID = some oldU)
    (hne : oldU ≠ u) (hstarted : (s.heap oldU).status = OpStatus.started)
    (hcreated : (s.heap u).status = OpStatus.created) :
    (addOperatorLocked c s u).2 = true
    ∧ ((addOperatorLocked c s u).1.heap oldU).status = OpStatus.replaced
    ∧ lookupA (addOperatorLocked c s u).1.operators (s.heap u).regionID = some u
    ∧ ∀ e ∈ (addOperatorLocked c s u).1.operators, e.2 ≠ oldU := by
  obtain ⟨hops, hrst, hrhp⟩ := replaceOldOperator_spec h hold hstarted
  have hu_ne : u ≠ oldU := fun e => hne e.symm
  have hmem : ((s.heap u).regionID, oldU) ∈ s.operators := lookupA_mem hold
  have hrold : (s.heap oldU).regionID = (s.heap u).regionID := h.2 _ hmem
  have hstart : opStart ((replaceOldOperator s (s.heap u).regionID).heap u) =
      ({ s.heap u with status := OpStatus.started }, true) := by
    rw [hrhp u hu_ne]
    unfold opStart
    rw [if_pos hcreated]
  unfold addOperatorLocked
  dsimp only
  rw [hstart]
  dsimp only
  simp only [Bool.not_true, Bool.false_eq_true, if_false]
  refine ⟨trivial, ?_, ?_, ?_⟩
  · dsimp only
    rw [checkAndSendFirst_heap_ne _ _ _ _ _ hne, takeLimits_heap]
    dsimp only
    simp only [updF]
    rw [if_neg hne]
    exact hrst
  · dsimp only
    rw [checkAndSendFirst_operators, takeLimits_operators]
    dsimp only
    rw [hops]
    exact lookupA_setA_self _ _ _
  · intro e he
    simp only [checkAndSendFirst_operators, takeLimits_operators] at he
    rw [hops] at he
    rcases mem_setA he with he1 | he2
    · rw [he1]
      exact hu_ne
    · intro hc
      have h3 : e ∈ s.operators := mem_eraseA he2
      have h4 : e.1 ≠ (s.heap u).regionID := mem_eraseA_ne h.1 he2
      exact h4 (by rw [← h.2 e h3, hc, hrold])

/-- Claim C1: under the running-table invariant Inv, every region has at
most one running operator; Inv is preserved by AddOperator and
AddWaitingOperator (on freshly allocated argument objects), by
PromoteWaitingOperator, Dispatch and RemoveOperator; and admitting an
operator for an occupied region succeeds by removing the old operator
from the running table and marking its status replaced, the new operator
taking the region's slot. -/
theorem C1_at_most_one_running_per_region :
    (∀ s r, Inv s → (runningWithRegion s r).length ≤ 1) ∧
    (∀ c s ops, Inv s → FreshUids s ops → Inv (addOperator c s ops).1) ∧
    (∀ c s ops, Inv s → FreshUids s ops → Inv (addWaitingOperator c s ops).state) ∧
    (∀ c s, Inv s → Inv (promoteWaitingOperator c s)) ∧
    (∀ c s region source, Inv s → Inv (dispatch c s region source)) ∧
    (∀ s u, Inv s → Inv (removeOperator s u).1) ∧
    (∀ c s u oldU, Inv s →
      lookupA s.operators (s.heap u).regionID = some oldU →
      oldU ≠ u →
      (s.heap oldU).status = OpStatus.started →
      (s.heap u).status = OpStatus.created →
      (addOperatorLocked c s u).2 = true ∧
      ((addOperatorLocked c s u).1.heap oldU).status = OpStatus.replaced ∧
      lookupA (addOperatorLocked c s u).1.operators (s.heap u).regionID = some u ∧
      ∀ e ∈ (addOperatorLocked c s u).1.operators, e.2 ≠ oldU) := by
  refine ⟨fun s r h => inv_at_most_one s h r,
    fun c s ops h hf => inv_addOperator h ops hf,
    fun c s ops h hf => inv_addWaitingOperator h ops hf,
    fun c s h => inv_promoteWaitingOperator h,
    fun c s region source h => inv_dispatch h region source,
    fun s u h => inv_removeOperator h u,
    fun c s u oldU h hold hne hst hcr => addOperatorLocked_replace h hold hne hst hcr⟩

/-- A started operator running on region 7, held at heap uid 1 of the C1
witness state. -/
def c1OldOp : Operator :=
  { regionID := 7, epochVer := 1, epochConfVer := 1, kind := opLeader,
    priorityLevel := 0, status := OpStatus.started, desc := "old",
    expiredNow := false, timedOut := false, remaining := [],
    confVerDelta := 0, influence := [] }

/-- A freshly created operator on the same region, held at every other
uid of the C1 witness heap. -/
def c1NewOp : Operator :=
  { c1OldOp with status := OpStatus.created, desc := "new" }

/-- The C1 witness state: region 7 occupied by the started operator at
uid 1. -/
def c1State : ControllerState :=
  { heap := fun v => if v = 1 then c1OldOp else c1NewOp,
    operators := [(7, 1)], waiting := [], wopStatusOps := [], counts := [],
    histories := [], records := [], notifier := [], storesLimit := [],
    sent := [], now := 0 }

/-- The C1 witness cluster: no regions, waiting cap 5. -/
def c1Ctx : ClusterCtx := { regions := [], maxWaitingOperator := 5 }

/-- Witness for C1 at a concrete state: the occupied region 7 has one
running operator, and admitting the created operator at uid 2 replaces
the started one at uid 1. -/
theorem C1_at_most_one_running_per_region_witness :
    (runningWithRegion c1State 7).length ≤ 1 ∧
    ((addOperatorLocked c1Ctx c1State 2).2 = true ∧
     ((addOperatorLocked c1Ctx c1State 2).1.heap 1).status = OpStatus.replaced ∧
     lookupA (addOperatorLocked c1Ctx c1State 2).1.operators
       (c1State.heap 2).regionID = some 2 ∧
     ∀ e ∈ (addOperatorLocked c1Ctx c1State 2).1.operators, e.2 ≠ 1) :=
  ⟨C1_at_most_one_running_per_region.1 c1State 7 (by decide),
   C1_at_most_one_running_per_region.2.2.2.2.2.2 c1Ctx c1State 2 1 (by decide) (by decide)
     (by decide) (by decide) (by decide)⟩

theorem cancelBuryFold_operators (us : List Nat) :
    ∀ s : ControllerState,
      (us.foldl (fun st u => buryOperator (cancelHeap st u) u) s).operators
        = s.operators := by
  induction us with
  | nil => intro s; rfl
  | cons u rest ih =>
      intro s
      simp only [List.foldl_cons]
      rw [ih, buryOperator_operators, cancelHeap_operators]

/-- Claim C4: checkAddOperator returns false as soon as some argument
operator is expired, and the AddOperator call as a whole then admits
nothing: it reports failure and leaves the running table unchanged. -/
theorem C4_expired_operator_rejected :
    (∀ c s us u, u ∈ us → (s.heap u).expiredNow = true →
      checkAddOperator c s us = false) ∧
    (∀ c s ops u, u ∈ ops.map Prod.fst →
      ((installOps s ops).heap u).expiredNow = true →
      (addOperator c s ops).2 = false ∧
      (addOperator c s ops).1.operators = s.operators) := by
  have key : ∀ c s us u, u ∈ us → (s.heap u).expiredNow = true →
      checkAddOperator c s us = false := by
    intro c s us u hu hexp
    unfold checkAddOperator
    have hany : us.any (fun v => (s.heap v).expiredNow) = true :=
      List.any_eq_true.2 ⟨u, hu, hexp⟩
    rw [hany]
    simp
  refine ⟨key, ?_⟩
  intro c s ops u hu hexp
  have hchk : checkAddOperator c (installOps s ops) (ops.map Prod.fst) = false :=
    key c (installOps s ops) (ops.map Prod.fst) u hu hexp
  unfold addOperator
  dsimp only
  rw [hchk]
  simp only [Bool.not_false, Bool.or_true, if_true]
  exact ⟨trivial, (cancelBuryFold_operators _ _).trans rfl⟩

/-- The expired created operator of the C4 witness. -/
def c4Op : Operator :=
  { regionID := 7, epochVer := 1, epochConfVer := 1, kind := opLeader,
    priorityLevel := 0, status := OpStatus.created, desc := "c4",
    expiredNow := true, timedOut := false, remaining := [],
    confVerDelta := 0, influence := [] }

/-- The C4 witness state: an empty controller whose heap holds the
expired operator everywhere. -/
def c4State : ControllerState :=
  { heap := fun _ => c4Op,
    operators := [], waiting := [], wopStatusOps := [], counts := [],
    histories := [], records := [], notifier := [], storesLimit := [],
    sent := [], now := 0 }

/-- The C4 witness cluster. -/
def c4Ctx : ClusterCtx := { regions := [], maxWaitingOperator := 5 }

/-- Witness for C4 at a concrete input: the expired operator at uid 3 is
rejected and AddOperator admits nothing. -/
theorem C4_expired_operator_rejected_witness :
    checkAddOperator c4Ctx c4State [3] = false ∧
    ((addOperator c4Ctx c4State [(3, c4Op)]).2 = false ∧
     (addOperator c4Ctx c4State [(3, c4Op)]).1.operators = c4State.operators) :=
  ⟨C4_expired_operator_rejected.1 c4Ctx c4State [3] 3 (by decide) (by decide),
   C4_expired_operator_rejected.2 c4Ctx c4State [(3, c4Op)] 3 (by decide) (by decide)⟩

theorem addWaitingLoop_promoted_iff (c : ClusterCtx) (s : ControllerState)
    (us : List Nat) (added : Nat) :
    (addWaitingLoop c s us added).promoted = true ↔
      ((addWaitingLoop c s us added).exitKind = AWExit.completed ∨
       (addWaitingLoop c s us added).exitKind = AWExit.rejected) := by
  induction s, us, added using addWaitingLoop.induct c with
  | case1 s added => simp [addWaitingLoop]
  | case2 s u added op hm =>
      unfold_let op at hm
      simp only [addWaitingLoop]
      rw [if_pos hm]
      simp
  | case3 s u added op hm v rest hpair0 =>
      unfold_let op at hm
      simp only [addWaitingLoop]
      rw [if_pos hm, if_pos hpair0]
      simp
  | case4 s u added op hm v rest hpair hrej =>
      unfold_let op at hm
      simp only [addWaitingLoop]
      rw [if_pos hm, if_neg hpair, if_pos hrej]
      simp
  | case5 s u added op hm v rest hpair hok s1 s2 ih =>
      unfold_let op at hm
      unfold_let s2 s1 op at ih
      simp only [addWaitingLoop]
      rw [if_pos hm, if_neg hpair, if_neg hok]
      exact ih
  | case6 s u rest added op hm0 hrej =>
      unfold_let op at hm0
      unfold addWaitingLoop
      dsimp only
      rw [if_neg hm0, if_pos hrej]
      simp
  | case7 s u rest added op hm0 hok s1 s2 ih =>
      unfold_let op at hm0
      unfold_let s2 s1 op at ih
      unfold addWaitingLoop
      dsimp only
      rw [if_neg hm0, if_neg hok]
      exact ih

/-- Claim C5 amended: AddWaitingOperator runs PromoteWaitingOperator
exactly on the all-enqueued and rejected exits; the orphan-merge and
mispaired-merge exits return without promoting (the Go code returns
added directly from inside the loop on those paths). -/
theorem C5_promote_only_on_completed_or_rejected :
    ∀ c s ops,
      (addWaitingOperator c s ops).promoted = true ↔
        ((addWaitingOperator c s ops).exitKind = AWExit.completed ∨
         (addWaitingOperator c s ops).exitKind = AWExit.rejected) :=
  fun c _ _ => addWaitingLoop_promoted_iff c _ _ 0

/-- A created merge-kind operator for the C5 and C6 scenarios. -/
def c5MergeOp : Operator :=
  { regionID := 8, epochVer := 1, epochConfVer := 1, kind := opMerge,
    priorityLevel := 0, status := OpStatus.created, desc := "c5m",
    expiredNow := false, timedOut := false, remaining := [],
    confVerDelta := 0, influence := [] }

/-- A created non-merge operator for the C5 and C6 scenarios. -/
def c5LeaderOp : Operator :=
  { c5MergeOp with kind := opLeader, desc := "c5l" }

/-- The empty controller of the C5 and C6 scenarios. -/
def c5State : ControllerState :=
  { heap := fun _ => c5LeaderOp,
    operators := [], waiting := [], wopStatusOps := [], counts := [],
    histories := [], records := [], notifier := [], storesLimit := [],
    sent := [], now := 0 }

/-- The cluster of the C5 and C6 scenarios. -/
def c5Ctx : ClusterCtx := { regions := [], maxWaitingOperator := 5 }

/-- Counterexample to claim C5: an orphan merge operator and a merge
operator followed by a non-merge operator both exit AddWaitingOperator
without any PromoteWaitingOperator call. -/
theorem C5_counterexample :
    (addWaitingOperator c5Ctx c5State [(1, c5MergeOp)]).promoted = false ∧
    (addWaitingOperator c5Ctx c5State [(1, c5MergeOp)]).exitKind = AWExit.orphanMerge ∧
    (addWaitingOperator c5Ctx c5State [(2, c5MergeOp), (3, c5LeaderOp)]).promoted = false ∧
    (addWaitingOperator c5Ctx c5State [(2, c5MergeOp), (3, c5LeaderOp)]).exitKind
      = AWExit.mispairedMerge := by
  refine ⟨?_, ?_, ?_, ?_⟩ <;>
    simp +decide [addWaitingOperator, addWaitingLoop, installOps, updF,
      c5State, c5Ctx, c5MergeOp, c5LeaderOp, opMerge, opLeader]

/-- Claim C6 amended: a merge-kind operator followed by a non-merge
operator makes AddWaitingOperator bail out with the mispaired-merge exit,
returning the count accumulated so far and leaving the controller state
exactly as it was: the merge operator is neither canceled nor buried
(the Go code only logs the pairing error), and neither operator is
enqueued. -/
theorem C6_mispaired_merge_leaves_state_unchanged :
    ∀ c s u v rest added,
      (s.heap u).kind &&& opMerge ≠ 0 →
      (s.heap v).kind &&& opMerge = 0 →
      addWaitingLoop c s (u :: v :: rest) added =
        ⟨s, added, false, AWExit.mispairedMerge⟩ := by
  intro c s u v rest added hm hv
  simp only [addWaitingLoop]
  rw [if_pos hm, if_pos hv]

/-- Witness for C6 at a concrete input: the installed merge and leader
operators at uids 2 and 3. -/
theorem C6_mispaired_merge_leaves_state_unchanged_witness :
    ((installOps c5State [(2, c5MergeOp), (3, c5LeaderOp)]).heap 2).kind &&& opMerge ≠ 0 ∧
    ((installOps c5State [(2, c5MergeOp), (3, c5LeaderOp)]).heap 3).kind &&& opMerge = 0 ∧
    addWaitingLoop c5Ctx (installOps c5State [(2, c5MergeOp), (3, c5LeaderOp)]) [2, 3] 0 =
      ⟨installOps c5State [(2, c5MergeOp), (3, c5LeaderOp)], 0, false,
        AWExit.mispairedMerge⟩ :=
  ⟨by decide, by decide,
   C6_mispaired_merge_leaves_state_unchanged c5Ctx _ 2 3 [] 0 (by decide) (by decide)⟩

/-- Counterexample to claim C6: after AddWaitingOperator on the
mispaired pair, the merge operator's status is still created (never
canceled), the bury records are empty (never buried), the waiting queue
is empty and the returned count is 0. -/
theorem C6_counterexample :
    ((addWaitingOperator c5Ctx c5State [(2, c5MergeOp), (3, c5LeaderOp)]).state.heap 2).status
      = OpStatus.created ∧
    ((addWaitingOperator c5Ctx c5State [(2, c5MergeOp), (3, c5LeaderOp)]).state.heap 2).status
      ≠ OpStatus.canceled ∧
    (addWaitingOperator c5Ctx c5State [(2, c5MergeOp), (3, c5LeaderOp)]).state.records = [] ∧
    (addWaitingOperator c5Ctx c5State [(2, c5MergeOp), (3, c5LeaderOp)]).state.waiting = [] ∧
    (addWaitingOperator c5Ctx c5State [(2, c5MergeOp), (3, c5LeaderOp)]).added = 0 := by
  refine ⟨?_, ?_, ?_, ?_, ?_⟩ <;>
    simp +decide [addWaitingOperator, addWaitingLoop, installOps, updF,
      c5State, c5Ctx, c5MergeOp, c5LeaderOp, opMerge, opLeader]

/-- Claim C7 amended: when the popped push-queue entry's operator is
still the region's running operator, the region exists and op.Check
returns no step, pollNeedDispatchRegion does not re-push the entry but
it does return the region with next = true, so PushOperators dispatches
that region from the push queue in this very round. -/
theorem C7_check_nil_region_is_dispatched :
    ∀ c s itemU t rest u region,
      s.notifier = (itemU, t) :: rest →
      lookupA s.operators (s.heap itemU).regionID = some u →
      lookupA c.regions (s.heap itemU).regionID = some region →
      (opCheck (s.heap u) region).2 = none →
      pollNeedDispatchRegion c s =
        ({ s with
            notifier := rest,
            heap := updF s.heap u (opCheck (s.heap u) region).1 }, some region, true) ∧
      ∀ fuel, region ∈ (pushOperators c s (fuel + 1)).2 := by
  intro c s itemU t rest u region hs hu hr hstep
  have hpoll : pollNeedDispatchRegion c s =
      ({ s with
          notifier := rest,
          heap := updF s.heap u (opCheck (s.heap u) region).1 }, some region, true) := by
    simp only [pollNeedDispatchRegion, hs, hu, hr, hstep]
  refine ⟨hpoll, fun fuel => ?_⟩
  simp only [pushOperators, hpoll]
  exact List.mem_cons_self _ _

/-- The started operator with no remaining step of the C7 scenario. -/
def c7Op : Operator :=
  { regionID := 9, epochVer := 1, epochConfVer := 1, kind := opLeader,
    priorityLevel := 0, status := OpStatus.started, desc := "c7",
    expiredNow := false, timedOut := false, remaining := [],
    confVerDelta := 0, influence := [] }

/-- The region of the C7 scenario. -/
def c7Region : RegionInfo :=
  { id := 9, epochVer := 1, epochConfVer := 1,
    peers := [⟨1, 1⟩], leader := some ⟨1, 1⟩,
    downPeers := [], pendingPeers := [],
    bytesWritten := 0, bytesRead := 0, keysWritten := 0, keysRead := 0,
    opsWrite := 0, opsRead := 0,
    intervalStart := 0, intervalEnd := 10,
    approximateSize := 0, approximateKeys := 0, replStatus := none }

/-- The C7 controller state: operator uid 5 runs on region 9 and sits in
the push queue, due at time 0. -/
def c7State : ControllerState :=
  { heap := fun _ => c7Op,
    operators := [(9, 5)], waiting := [], wopStatusOps := [], counts := [],
    histories := [], records := [], notifier := [(5, 0)], storesLimit := [],
    sent := [], now := 0 }

/-- The C7 cluster: region 9 exists. -/
def c7Ctx : ClusterCtx := { regions := [(9, c7Region)], maxWaitingOperator := 5 }

/-- Witness for C7 at the concrete scenario. -/
theorem C7_check_nil_region_is_dispatched_witness :
    pollNeedDispatchRegion c7Ctx c7State =
      ({ c7State with
          notifier := [],
          heap := updF c7State.heap 5 (opCheck (c7State.heap 5) c7Region).1 },
        some c7Region, true) ∧
    c7Region ∈ (pushOperators c7Ctx c7State (2 + 1)).2 :=
  ⟨(C7_check_nil_region_is_dispatched c7Ctx c7State 5 0 [] 5 c7Region
      (by decide) (by decide) (by decide) (by decide)).1,
   (C7_check_nil_region_is_dispatched c7Ctx c7State 5 0 [] 5 c7Region
      (by decide) (by decide) (by decide) (by decide)).2 2⟩

/-- Counterexample to claim C7: in the concrete scenario the poll
returns region 9 with next = true (while indeed not re-pushing the
entry), and the PushOperators round dispatches exactly that region —
the claim that the region is not dispatched in this round is false. -/
theorem C7_counterexample :
    (pollNeedDispatchRegion c7Ctx c7State).2 = (some c7Region, true) ∧
    (pollNeedDispatchRegion c7Ctx c7State).1.notifier = [] ∧
    (pushOperators c7Ctx c7State 3).2 = [c7Region] := by
  refine ⟨by decide, by decide, ?_⟩
  simp +decide [pushOperators, pollNeedDispatchRegion, dispatch, promoteWaitingOperator,
    promoteLoop, wopGetOperator, addOpsStartLoop, removeOperator, removeOperatorLocked,
    removeOperatorWithoutBury, buryOperator, cancelHeap, opCancel, pushHistory,
    updateCounts, opCheck, updF, lookupA, eraseA, setA, isEndStatus, headDesc,
    decWopStatus, sendScheduleCommandOpt, sendScheduleCommand, getNextPushOperatorTime,
    pushNotifier, c7Op, c7Region, c7State, c7Ctx]

/-- Claim C10: RemoveOperator removes, cancels and buries the operator
exactly when the running table still maps its region to this very
object; when the slot holds a different operator (or none), the call
returns false and the state is completely unchanged. -/
theorem C10_removeOperator_only_identical :
    (∀ s u, lookupA s.operators (s.heap u).regionID = some u →
      removeOperator s u =
        (buryOperator (cancelHeap
          ({ s with
              operators := eraseA s.operators (s.heap u).regionID,
              counts := updateCounts s.heap (eraseA s.operators (s.heap u).regionID) })
          u) u,
         true)) ∧
    (∀ s u, lookupA s.operators (s.heap u).regionID ≠ some u →
      removeOperator s u = (s, false)) := by
  constructor
  · intro s u hid
    have hrem : removeOperatorLocked s u =
        ({ s with
            operators := eraseA s.operators (s.heap u).regionID,
            counts := updateCounts s.heap (eraseA s.operators (s.heap u).regionID) },
          true) := by
      unfold removeOperatorLocked
      dsimp only
      split
      · rename_i cur hcur
        rw [hid] at hcur
        injection hcur with hcur
        rw [if_pos hcur.symm]
      · rename_i hcur
        rw [hid] at hcur
        exact absurd hcur (by simp)
    unfold removeOperator
    dsimp only
    rw [hrem]
    simp
  · intro s u hne
    have hrem : removeOperatorLocked s u = (s, false) := by
      unfold removeOperatorLocked
      dsimp only
      split
      · rename_i cur hcur
        have hcu : ¬ cur = u := fun he => hne (hcur.trans (congrArg some he))
        rw [if_neg hcu]
      · rfl
    unfold removeOperator
    dsimp only
    rw [hrem]
    simp

/-- Witness for C10 at the concrete C1 state: uid 1 is the identical
running operator of region 7 and is removed; uid 2 is a different object
on the same region, so its removal fails and changes nothing. -/
theorem C10_removeOperator_only_identical_witness :
    (lookupA c1State.operators (c1State.heap 1).regionID = some 1 ∧
     removeOperator c1State 1 =
       (buryOperator (cancelHeap
         ({ c1State with
             operators := eraseA c1State.operators (c1State.heap 1).regionID,
             counts := updateCounts c1State.heap
               (eraseA c1State.operators (c1State.heap 1).regionID) })
         1) 1,
        true)) ∧
    (lookupA c1State.operators (c1State.heap 2).regionID ≠ some 2 ∧
     removeOperator c1State 2 = (c1State, false)) :=
  ⟨⟨by decide, C10_removeOperator_only_identical.1 c1State 1 (by decide)⟩,
   ⟨by decide, C10_removeOperator_only_identical.2 c1State 2 (by decide)⟩⟩

end Schedule

/-! ## Region heartbeat ingest (cluster/cluster.go) -/

namespace Cluster

open Statistics

/-- The slice of RaftCluster state read and written by
processRegionHeartbeat: the region cache of the core container, the
shared minimum hot thresholds with the write and read hot caches, the
traceRegionFlow option, and the logs of the side effects the routine
drives (regionStats.Observe, prepareChecker.collect, storage.SaveRegion
and the changed-regions channel), each recorded by region ID. -/
structure RaftCluster where
  regions : List (Nat × RegionInfo)
  minThresholds : FlowKind → Dims
  hotWrite : HotPeerCache
  hotRead : HotPeerCache
  traceRegionFlow : Bool
  observed : List Nat
  prepared : List Nat
  savedRegions : List Nat
  changedRegions : List Nat

/-- Modelled from the spec (the core region container is not part of
the snapshot): PreCheckPutRegion returns the cached origin — none when
the region is new — and fails when the reported epoch is stale, i.e.
strictly older than the cached one in either component. -/
def preCheckPutRegion (regions : List (Nat × RegionInfo)) (region : RegionInfo) :
    Except Unit (Option RegionInfo) :=
  match lookupA regions region.id with
  | none => Except.ok none
  | some origin =>
      if region.epochVer < origin.epochVer ∨ region.epochConfVer < origin.epochConfVer then
        Except.error ()
      else Except.ok (some origin)

/-- Modelled from the spec (core container not in the snapshot):
PutRegion stores the region under its ID; the trimming of overlapping
ranges is not modelled. -/
def putRegion (regions : List (Nat × RegionInfo)) (region : RegionInfo) :
    List (Nat × RegionInfo) :=
  setA regions region.id region

/-- RaftCluster.CheckWriteStatus: CheckRegionFlow on the write cache. -/
def CheckWriteStatus (c : RaftCluster) (region : RegionInfo) : List HotPeerStat :=
  checkRegionFlow c.minThresholds c.hotWrite region

/-- RaftCluster.CheckReadStatus: CheckRegionFlow on the read cache. -/
def CheckReadStatus (c : RaftCluster) (region : RegionInfo) : List HotPeerStat :=
  checkRegionFlow c.minThresholds c.hotRead region

/-- The flag block of processRegionHeartbeat for an existing origin:
epoch growth, leader change, down or pending peers on either side, a
changed peer count, changed approximate sizes, traced flow deltas and a
changed replication status drive (saveKV, saveCache, isNew, needSync). -/
def heartbeatFlags (trace : Bool) (region origin : RegionInfo) :
    Bool × Bool × Bool × Bool :=
  let epochChanged := decide (origin.epochVer < region.epochVer)
    || decide (origin.epochConfVer < region.epochConfVer)
  let leaderChanged := decide (region.leaderID ≠ origin.leaderID)
  let isNew := leaderChanged && decide (origin.leaderID = 0)
  let peersChanged := decide (region.peers.length ≠ origin.peers.length)
  let flowChanged := trace &&
    (decide (region.bytesWritten ≠ origin.bytesWritten)
     || decide (region.bytesRead ≠ origin.bytesRead)
     || decide (region.keysWritten ≠ origin.keysWritten)
     || decide (region.keysRead ≠ origin.keysRead)
     || decide (region.opsWrite ≠ origin.opsWrite)
     || decide (region.opsRead ≠ origin.opsRead))
  let replChanged := decide (region.replState ≠ 0)
    && (decide (region.replState ≠ origin.replState)
        || decide (region.replStateID ≠ origin.replStateID))
  let saveKV := epochChanged || peersChanged
  let saveCache := epochChanged || leaderChanged
    || decide (region.downPeers ≠ []) || decide (region.pendingPeers ≠ [])
    || decide (origin.downPeers ≠ []) || decide (origin.pendingPeers ≠ [])
    || peersChanged
    || decide (region.approximateSize ≠ origin.approximateSize)
    || decide (region.approximateKeys ≠ origin.approximateKeys)
    || flowChanged || replChanged
  let needSync := leaderChanged || flowChanged
  (saveKV, saveCache, isNew, needSync)

/-- RaftCluster.processRegionHeartbeat: pre-check, hot status checks,
the flag block, the early return when nothing is to be done, then the
cache write (with its re-check), the prepare collection, the region
stats observation, the hot cache updates, the storage save and the
changed-regions notification. -/
def processRegionHeartbeat (c : RaftCluster) (region : RegionInfo) :
    Except Unit RaftCluster :=
  match preCheckPutRegion c.regions region with
  | Except.error e => Except.error e
  | Except.ok origin =>
      let writeItems := CheckWriteStatus c region
      let readItems := CheckReadStatus c region
      let flags :=
        match origin with
        | none => (true, true, true, false)
        | some o => heartbeatFlags c.traceRegionFlow region o
      let saveKV := flags.1
      let saveCache := flags.2.1
      let isNew := flags.2.2.1
      let needSync := flags.2.2.2
      if writeItems.isEmpty && readItems.isEmpty && !saveKV && !saveCache && !isNew then
        Except.ok c
      else
        let resCache :=
          if saveCache then
            match preCheckPutRegion c.regions region with
            | Except.error e => Except.error e
            | Except.ok _ => Except.ok { c with regions := putRegion c.regions region }
          else Except.ok c
        match resCache with
        | Except.error e => Except.error e
        | Except.ok c1 =>
            let c2 := if isNew then { c1 with prepared := region.id :: c1.prepared } else c1
            let c3 := { c2 with observed := region.id :: c2.observed }
            let c4 := { c3 with hotWrite := writeItems.foldl cacheUpdate c3.hotWrite }
            let c5 := { c4 with hotRead := readItems.foldl cacheUpdate c4.hotRead }
            let c6 :=
              if saveKV then { c5 with savedRegions := region.id :: c5.savedRegions } else c5
            let c7 :=
              if saveKV || needSync then
                { c6 with changedRegions := region.id :: c6.changedRegions }
              else c6
            Except.ok c7

/-- Claim C9: a heartbeat for an already-cached region producing no hot
write items, no hot read items and none of the saveKV, saveCache and
isNew flags returns nil and is a no-op: the returned cluster state is
the input state, so the region cache, the hot caches, the observation
and prepare logs, the storage log and the changed-regions channel are
all unchanged. -/
theorem C9_quiet_heartbeat_is_noop :
    ∀ c region origin,
      preCheckPutRegion c.regions region = Except.ok (some origin) →
      CheckWriteStatus c region = [] →
      CheckReadStatus c region = [] →
      (heartbeatFlags c.traceRegionFlow region origin).1 = false →
      (heartbeatFlags c.traceRegionFlow region origin).2.1 = false →
      (heartbeatFlags c.traceRegionFlow region origin).2.2.1 = false →
      processRegionHeartbeat c region = Except.ok c := by
  intro c region origin hpre hw hr hkv hcache hnew
  simp only [processRegionHeartbeat, hpre, hw, hr]
  simp [hkv, hcache, hnew]

/-- The cold cached region of the C9 witness. -/
def c9Region : RegionInfo :=
  { id := 12, epochVer := 3, epochConfVer := 2,
    peers := [⟨1, 1⟩], leader := some ⟨1, 1⟩,
    downPeers := [], pendingPeers := [],
    bytesWritten := 0, bytesRead := 0, keysWritten := 0, keysRead := 0,
    opsWrite := 0, opsRead := 0,
    intervalStart := 0, intervalEnd := 10,
    approximateSize := 0, approximateKeys := 0, replStatus := none }

/-- The C9 witness cluster: region 12 cached as reported, cold empty hot
caches, flow tracing off. -/
def c9Cluster : RaftCluster :=
  { regions := [(12, c9Region)],
    minThresholds := minHotThresholdsInit,
    hotWrite := newHotStoresStats FlowKind.write,
    hotRead := newHotStoresStats FlowKind.read,
    traceRegionFlow := false,
    observed := [], prepared := [], savedRegions := [], changedRegions := [] }

unseal Rat.mul Rat.add Rat.inv Rat.sub in
/-- Witness for C9: the identical cold heartbeat of region 12 changes
nothing. -/
theorem C9_quiet_heartbeat_is_noop_witness :
    preCheckPutRegion c9Cluster.regions c9Region = Except.ok (some c9Region) ∧
    CheckWriteStatus c9Cluster c9Region = [] ∧
    CheckReadStatus c9Cluster c9Region = [] ∧
    processRegionHeartbeat c9Cluster c9Region = Except.ok c9Cluster :=
  ⟨rfl, by decide, by decide,
   C9_quiet_heartbeat_is_noop c9Cluster c9Region c9Region rfl (by decide) (by decide)
     (by decide) (by decide) (by decide)⟩

end Cluster

end Libra
